import Mathlib

/-!
Verification model of the property-storage core of the rtakacs/jerryscript
repository: the property list, the open-addressed property hashmap
(ecma-property-hashmap.c), the lookup cache (ecma-lcache.c), the property
helpers (ecma-helpers.c), and the error-reference / bytecode reference
counters.  Machine integers are modelled as Nat; compressed pointers
(jmem_cpointer_t) are 16-bit handles modelled as Nat.  The configuration
modelled is the 16-bit compressed-pointer build with JERRY_LCACHE and
JERRY_PROPRETY_HASHMAP enabled, which is the configuration the sources in
ecma-helpers.c are written against.
-/

/-! ## Constants taken from the sources -/

/-- From ecma-property-hashmap.h: recommended minimum number of items in a
property cache. -/
def ECMA_PROPERTY_HASMAP_MINIMUM_SIZE : Nat := 32

/-- Modelled from the spec: ecma-globals.h is not among the sources; the
property index type is uint16 and its invalid sentinel is the all-ones
value.  This value is forced by ecma-property-hashmap.c, which initializes
all hashmap cells to ECMA_PROPERTY_HASHMAP_CLEAN_ENTRY
(= ECMA_PROPERTY_INDEX_INVALID) with a memset of the byte 0xff. -/
def ECMA_PROPERTY_INDEX_INVALID : Nat := 65535

/-- From ecma-property-hashmap.c: clean entry marker. -/
def ECMA_PROPERTY_HASHMAP_CLEAN_ENTRY : Nat := ECMA_PROPERTY_INDEX_INVALID

/-- From ecma-property-hashmap.c: deleted (tombstone) entry marker. -/
def ECMA_PROPERTY_HASHMAP_DIRTY_ENTRY : Nat := ECMA_PROPERTY_INDEX_INVALID - 1

/-- From ecma-property-hashmap.c: number of items in the stepping table. -/
def ECMA_PROPERTY_HASHMAP_NUMBER_OF_STEPS : Nat := 8

/-- From ecma-property-hashmap.c: stepping values for searching items in the
hashmap. -/
def ecma_property_hashmap_steps : List Nat := [3, 5, 7, 11, 13, 17, 19, 23]

/-! ### Property record bit layout

Modelled from the spec (§3 "Property record"): ecma-globals.h is not among
the sources.  `type_flags` is 8 bits combining the property kind (low two
bits), the attribute bits CONFIGURABLE / ENUMERABLE / WRITABLE / LCACHED,
and the name-type bits in the high part.  The numeric values are fixed by
the static assertion in ecma-helpers.c:
`ECMA_PROPERTY_TYPE_DELETED == (ECMA_DIRECT_STRING_MAGIC << ECMA_PROPERTY_NAME_TYPE_SHIFT)`. -/

/-- Modelled from the spec: property kind mask (low two bits of type_flags). -/
def ECMA_PROPERTY_TYPE_MASK : Nat := 3

/-- Modelled from the spec: special-purpose property kind (deleted slots). -/
def ECMA_PROPERTY_TYPE_SPECIAL : Nat := 0

/-- Modelled from the spec: named data property kind. -/
def ECMA_PROPERTY_TYPE_NAMEDDATA : Nat := 1

/-- Modelled from the spec: named accessor property kind. -/
def ECMA_PROPERTY_TYPE_NAMEDACCESSOR : Nat := 2

/-- Modelled from the spec: internal (also virtual) property kind. -/
def ECMA_PROPERTY_TYPE_INTERNAL : Nat := 3

/-- Modelled from the spec: the configurable attribute bit. -/
def ECMA_PROPERTY_FLAG_CONFIGURABLE : Nat := 4

/-- Modelled from the spec: the enumerable attribute bit. -/
def ECMA_PROPERTY_FLAG_ENUMERABLE : Nat := 8

/-- Modelled from the spec: the writable attribute bit. -/
def ECMA_PROPERTY_FLAG_WRITABLE : Nat := 16

/-- Modelled from the spec: the LCACHED bit, set iff an entry for this slot
currently exists in the lookup cache. -/
def ECMA_PROPERTY_FLAG_LCACHED : Nat := 32

/-- Modelled from the spec: shift of the name-type bits inside type_flags. -/
def ECMA_PROPERTY_NAME_TYPE_SHIFT : Nat := 6

/-- Modelled from the spec: name type of a heap (indirect) string name. -/
def ECMA_DIRECT_STRING_PTR : Nat := 0

/-- Modelled from the spec: name type of a magic-id direct string. -/
def ECMA_DIRECT_STRING_MAGIC : Nat := 1

/-- Modelled from the spec: name type of an unsigned-integer direct string. -/
def ECMA_DIRECT_STRING_UINT : Nat := 2

/-- Modelled from the spec: type_flags value of a deleted slot; equals
ECMA_DIRECT_STRING_MAGIC shifted by ECMA_PROPERTY_NAME_TYPE_SHIFT, as the
static assertion in ecma-helpers.c requires. -/
def ECMA_PROPERTY_TYPE_DELETED : Nat :=
  ECMA_DIRECT_STRING_MAGIC <<< ECMA_PROPERTY_NAME_TYPE_SHIFT

/-- Modelled from the spec: the magic-string id stored into the name_cp field
of a deleted slot (an id in the internal magic-string range). -/
def LIT_INTERNAL_MAGIC_STRING_DELETED : Nat := 256

/-- Modelled from the spec: number of MRU slots in the property-list header
cache; the spec (§3) fixes it to 3 on 16-bit compressed-pointer builds. -/
def ECMA_PROPERTY_CACHE_SIZE : Nat := 3

/-- Modelled from the spec: number of rows of the lookup cache
(lookup_cache_rows configuration value of §6; the row-LRU design of §4.4). -/
def ECMA_LCACHE_HASH_ROWS_COUNT : Nat := 128

/-- Modelled from the spec: entries per row of the lookup cache
(lookup_cache_row_len configuration value of §6); the LRU-within-a-row
design requires at least two entries per row. -/
def ECMA_LCACHE_HASH_ROW_LENGTH : Nat := 2

/-- From ecma-lcache.c: bitshift index for calculating the row hash; zero on
the 16-bit compressed-pointer build. -/
def ECMA_LCACHE_HASH_BITSHIFT_INDEX : Nat := 0

/-- From ecma-lcache.c: mask for the row-hash bits. -/
def ECMA_LCACHE_HASH_MASK : Nat :=
  (ECMA_LCACHE_HASH_ROWS_COUNT - 1) <<< ECMA_LCACHE_HASH_BITSHIFT_INDEX

/-- From ecma-lcache.c: bitshift for creating a property identifier; this is
8 * sizeof (jmem_cpointer_t) = 16 on the 16-bit compressed-pointer build. -/
def ECMA_LCACHE_HASH_ENTRY_ID_SHIFT : Nat := 16

/-! ## Strings and property records -/

/-- An ecma string handle, as the property core observes it.  A direct string
has a nonzero name type (`ntype`) and carries its payload in `cp`; an
indirect string has name type ECMA_DIRECT_STRING_PTR and `cp` is the
compressed pointer of the interned heap string (interning makes the pointer
determine the contents).  `hash` models the value of the external hash
function ecma_string_hash on this string. -/
structure ecma_string_t where
  ntype : Nat
  cp : Nat
  hash : Nat
deriving DecidableEq, Repr

/-- From ecma-globals.h via its uses in the sources: ECMA_IS_DIRECT_STRING. -/
def ECMA_IS_DIRECT_STRING (s : ecma_string_t) : Bool :=
  s.ntype != ECMA_DIRECT_STRING_PTR

/-- The external string comparison ecma_compare_ecma_non_direct_strings,
which compares heap string contents; with interning two heap strings are
content-equal iff their compressed pointers are equal. -/
def ecma_compare_ecma_non_direct_strings (a b : ecma_string_t) : Bool :=
  a.cp == b.cp

/-- One property record (ecma_property_t).  `nameHash` models the hash of the
property name as recomputed by ecma_string_get_property_name_hash (in the C
code it is recovered from name_cp through the string heap). -/
structure ecma_property_t where
  type_flags : Nat
  name_cp : Nat
  lcache_id : Nat
  nameHash : Nat
  value : Nat
deriving DecidableEq, Repr

/-- From ecma-globals.h via its uses: ECMA_PROPERTY_GET_TYPE. -/
def ECMA_PROPERTY_GET_TYPE (p : ecma_property_t) : Nat :=
  p.type_flags &&& ECMA_PROPERTY_TYPE_MASK

/-- From ecma-globals.h via its uses: ECMA_PROPERTY_GET_NAME_TYPE. -/
def ECMA_PROPERTY_GET_NAME_TYPE (p : ecma_property_t) : Nat :=
  p.type_flags >>> ECMA_PROPERTY_NAME_TYPE_SHIFT

/-- From ecma-globals.h via its uses: ECMA_PROPERTY_IS_NAMED_PROPERTY; a slot
is a named property iff its kind is not the special kind (deleted slots have
kind SPECIAL because ECMA_PROPERTY_TYPE_DELETED has zero low bits). -/
def ECMA_PROPERTY_IS_NAMED_PROPERTY (p : ecma_property_t) : Bool :=
  ECMA_PROPERTY_GET_TYPE p != ECMA_PROPERTY_TYPE_SPECIAL

/-- From ecma-helpers.c: ecma_is_property_writable. -/
def ecma_is_property_writable (p : ecma_property_t) : Bool :=
  (p.type_flags &&& ECMA_PROPERTY_FLAG_WRITABLE) != 0

/-- From ecma-helpers.c: ecma_set_property_writable_attr; sets or clears the
WRITABLE bit of type_flags (the C code masks with the uint8 complement). -/
def ecma_set_property_writable_attr (p : ecma_property_t) (is_writable : Bool) :
    ecma_property_t :=
  if is_writable then
    { p with type_flags := p.type_flags ||| ECMA_PROPERTY_FLAG_WRITABLE }
  else
    { p with type_flags := p.type_flags &&& (255 - ECMA_PROPERTY_FLAG_WRITABLE) }

/-- From ecma-helpers.c: ecma_is_property_enumerable. -/
def ecma_is_property_enumerable (p : ecma_property_t) : Bool :=
  (p.type_flags &&& ECMA_PROPERTY_FLAG_ENUMERABLE) != 0

/-- From ecma-helpers.c: ecma_set_property_enumerable_attr. -/
def ecma_set_property_enumerable_attr (p : ecma_property_t) (is_enumerable : Bool) :
    ecma_property_t :=
  if is_enumerable then
    { p with type_flags := p.type_flags ||| ECMA_PROPERTY_FLAG_ENUMERABLE }
  else
    { p with type_flags := p.type_flags &&& (255 - ECMA_PROPERTY_FLAG_ENUMERABLE) }

/-- From ecma-helpers.c: ecma_is_property_configurable. -/
def ecma_is_property_configurable (p : ecma_property_t) : Bool :=
  (p.type_flags &&& ECMA_PROPERTY_FLAG_CONFIGURABLE) != 0

/-- From ecma-helpers.c: ecma_set_property_configurable_attr. -/
def ecma_set_property_configurable_attr (p : ecma_property_t) (is_configurable : Bool) :
    ecma_property_t :=
  if is_configurable then
    { p with type_flags := p.type_flags ||| ECMA_PROPERTY_FLAG_CONFIGURABLE }
  else
    { p with type_flags := p.type_flags &&& (255 - ECMA_PROPERTY_FLAG_CONFIGURABLE) }

/-- From ecma-helpers.c: ecma_is_property_lcached. -/
def ecma_is_property_lcached (p : ecma_property_t) : Bool :=
  (p.type_flags &&& ECMA_PROPERTY_FLAG_LCACHED) != 0

/-- From ecma-helpers.c: ecma_set_property_lcached. -/
def ecma_set_property_lcached (p : ecma_property_t) (is_lcached : Bool) :
    ecma_property_t :=
  if is_lcached then
    { p with type_flags := p.type_flags ||| ECMA_PROPERTY_FLAG_LCACHED }
  else
    { p with type_flags := p.type_flags &&& (255 - ECMA_PROPERTY_FLAG_LCACHED) }

/-! ## Error references and bytecode references (ecma-helpers.c) -/

/-- Modelled from the spec: the abort flag of an error reference
(refs_and_flags bit 0); ecma-globals.h is not among the sources. -/
def ECMA_ERROR_REF_ABORT : Nat := 1

/-- Modelled from the spec: one reference-count unit of an error reference
(the count is kept above the abort bit). -/
def ECMA_ERROR_REF_ONE : Nat := 2

/-- Modelled from the spec: maximum value of the error reference counter;
the spec (§6) states the reference counts are 16-bit, so the counter
saturates at 65535 units. -/
def ECMA_ERROR_MAX_REF : Nat := 65535 * ECMA_ERROR_REF_ONE

/-- An error reference record (ecma_error_reference_t). -/
structure ecma_error_reference_t where
  refs_and_flags : Nat
  value : Nat
deriving DecidableEq, Repr

/-- A compiled code header (ecma_compiled_code_t), reduced to the fields the
reference counter touches. -/
structure ecma_compiled_code_t where
  refs : Nat
  status_flags : Nat
deriving DecidableEq, Repr

/-- Fatal exit codes surfaced by jerry_fatal. -/
inductive jerry_fatal_code where
  | ERR_REF_COUNT_LIMIT
deriving DecidableEq, Repr

/-- From ecma-helpers.c: ecma_ref_error_reference; increases the reference
count by one unit while below the maximum, otherwise exits fatally with
ERR_REF_COUNT_LIMIT. -/
def ecma_ref_error_reference (e : ecma_error_reference_t) :
    Except jerry_fatal_code ecma_error_reference_t :=
  if e.refs_and_flags < ECMA_ERROR_MAX_REF then
    Except.ok { e with refs_and_flags := e.refs_and_flags + ECMA_ERROR_REF_ONE }
  else
    Except.error jerry_fatal_code.ERR_REF_COUNT_LIMIT

/-- From ecma-helpers.c: ecma_bytecode_ref; aborts the program when the
maximum reference number UINT16_MAX is reached, otherwise increments. -/
def ecma_bytecode_ref (b : ecma_compiled_code_t) :
    Except jerry_fatal_code ecma_compiled_code_t :=
  if 65535 ≤ b.refs then
    Except.error jerry_fatal_code.ERR_REF_COUNT_LIMIT
  else
    Except.ok { b with refs := b.refs + 1 }

/-! ## Property list header and hashmap (ecma-property-hashmap.c, canonical
open-addressed variant) -/

/-- The property hashmap header (ecma_property_hashmap_t) together with the
cell array (pair_list) that follows it in memory. -/
structure ecma_property_hashmap_t where
  max_property_count : Nat
  null_count : Nat
  unused_count : Nat
  pair_list : List Nat
deriving DecidableEq, Repr

/-- The property list header (ecma_property_header_t) together with the slot
array that follows it in memory.  Slot `i` (1-based, as the sources address
slots relative to the header) is `slots.getD (i - 1)`.  In the C code
`cache[0] = 0` signals that `cache[1]` holds the compressed pointer of a
hashmap; the model carries the pointed-to hashmap in the `hashmap` field. -/
structure ecma_property_header_t where
  count : Nat
  cache : List Nat
  slots : List ecma_property_t
  hashmap : Option ecma_property_hashmap_t
deriving DecidableEq, Repr

instance : Inhabited ecma_property_t :=
  ⟨{ type_flags := 0, name_cp := 0, lcache_id := 0, nameHash := 0, value := 0 }⟩

/-- The per-context state the property core reads: the hashmap allocation
switch (JERRY_CONTEXT (ecma_prop_hashmap_alloc_state)) and whether the
optional allocator jmem_heap_alloc_block_null_on_error succeeds. -/
structure jcontext_t where
  ecma_prop_hashmap_alloc_on : Bool
  heap_alloc_ok : Bool
deriving DecidableEq, Repr

/-- The probe step selected from the stepping table by the low bits of the
hash, as in ecma-property-hashmap.c. -/
def ecma_hashmap_step_of (hash : Nat) : Nat :=
  ecma_property_hashmap_steps.getD
    (hash &&& (ECMA_PROPERTY_HASHMAP_NUMBER_OF_STEPS - 1)) 0

/-- One probing step of the hashmap loops:
`entry_index = (entry_index + step) & mask`. -/
def ecma_hashmap_probe_next (step mask entry : Nat) : Nat :=
  (entry + step) &&& mask

/-- The probe position reached after `i` steps from `start`. -/
def ecma_hashmap_probe_pos (start step mask : Nat) : Nat → Nat
  | 0 => start
  | i + 1 => ecma_hashmap_probe_next step mask (ecma_hashmap_probe_pos start step mask i)

/-- The probe loop of ecma_property_hashmap_create and
ecma_property_hashmap_insert: walk the probe sequence to the first cell
whose value is at least ECMA_PROPERTY_HASHMAP_DIRTY_ENTRY (a CLEAN or DIRTY
cell).  The C loop is unbounded; the model bounds it by a fuel of
max_property_count steps, which theorem spec_c3 shows visits every cell. -/
def ecma_hashmap_probe_free (pair_list : List Nat) (step mask : Nat) :
    Nat → Nat → Option Nat
  | _, 0 => none
  | entry, fuel + 1 =>
    if ECMA_PROPERTY_HASHMAP_DIRTY_ENTRY ≤ pair_list.getD entry 0 then some entry
    else ecma_hashmap_probe_free pair_list step mask
      (ecma_hashmap_probe_next step mask entry) fuel

/-- The probe loop of ecma_property_hashmap_delete: walk the probe sequence
to the first live cell holding the index of the property being deleted
(pointer equality of property records is index equality). -/
def ecma_hashmap_probe_match (pair_list : List Nat) (idx step mask : Nat) :
    Nat → Nat → Option Nat
  | _, 0 => none
  | entry, fuel + 1 =>
    if pair_list.getD entry 0 < ECMA_PROPERTY_HASHMAP_DIRTY_ENTRY ∧
        pair_list.getD entry 0 = idx then some entry
    else ecma_hashmap_probe_match pair_list idx step mask
      (ecma_hashmap_probe_next step mask entry) fuel

/-- The per-cell name comparison of the two find loops of
ecma_property_hashmap_find (and of the linear scans of
ecma_find_named_property): the direct-string fast path compares the
compressed name and the name type, the general path considers only slots
with a heap-string name and compares contents (with interning, pointer
equality). -/
def ecma_property_name_matches (p : ecma_property_t) (name : ecma_string_t) : Bool :=
  if ECMA_IS_DIRECT_STRING name then
    p.name_cp == name.cp && ECMA_PROPERTY_GET_NAME_TYPE p == name.ntype
  else
    ECMA_PROPERTY_GET_NAME_TYPE p == ECMA_DIRECT_STRING_PTR && p.name_cp == name.cp

/-- The probe loop of ecma_property_hashmap_find: stop with failure on a
CLEAN cell, skip DIRTY cells, and return the property index stored in the
first live cell whose property matches the name. -/
def ecma_hashmap_probe_find (slots : List ecma_property_t) (pair_list : List Nat)
    (name : ecma_string_t) (step mask : Nat) : Nat → Nat → Option Nat
  | _, 0 => none
  | entry, fuel + 1 =>
    if pair_list.getD entry 0 = ECMA_PROPERTY_HASHMAP_CLEAN_ENTRY then none
    else if pair_list.getD entry 0 = ECMA_PROPERTY_HASHMAP_DIRTY_ENTRY then
      ecma_hashmap_probe_find slots pair_list name step mask
        (ecma_hashmap_probe_next step mask entry) fuel
    else if ecma_property_name_matches
        (slots.getD (pair_list.getD entry 0 - 1) default) name then
      some (pair_list.getD entry 0)
    else
      ecma_hashmap_probe_find slots pair_list name step mask
        (ecma_hashmap_probe_next step mask entry) fuel

/-- The size-selection loop of ecma_property_hashmap_create: double `max`
while it is below `target` (the C loop cannot start from zero; the zero
guard only serves termination of the Lean recursion). -/
def ecma_hashmap_grow_size (target : Nat) (max : Nat) : Nat :=
  if h : 0 < max ∧ max < target then ecma_hashmap_grow_size target (2 * max) else max
termination_by target - max
decreasing_by omega

/-- The population loop of ecma_property_hashmap_create: insert the 1-based
index of every named slot at the first CLEAN-or-DIRTY cell of its probe
sequence. -/
def ecma_hashmap_fill (mask : Nat) (pair_list : List Nat)
    (slots : List (Nat × ecma_property_t)) : List Nat :=
  slots.foldl (fun cells ip =>
    if ECMA_PROPERTY_IS_NAMED_PROPERTY ip.2 then
      let step := ecma_hashmap_step_of ip.2.nameHash
      let entry := ip.2.nameHash &&& mask
      match ecma_hashmap_probe_free cells step mask entry (mask + 1) with
      | some j => cells.set j (ip.1 + 1)
      | none => cells
    else cells) pair_list

/-- From ecma-property-hashmap.c: ecma_property_hashmap_create.  A no-op
unless the allocation switch is ON, the property count reaches half of
ECMA_PROPERTY_HASMAP_MINIMUM_SIZE, and the optional allocation succeeds;
otherwise builds the cell table and marks the header by clearing cache[0]
(cache[1] receives the compressed pointer of the hashmap, carried here by
the `hashmap` field). -/
def ecma_property_hashmap_create (ctx : jcontext_t) (h : ecma_property_header_t) :
    ecma_property_header_t :=
  if ctx.ecma_prop_hashmap_alloc_on = false then h
  else if h.count < ECMA_PROPERTY_HASMAP_MINIMUM_SIZE / 2 then h
  else
    let max_property_count :=
      ecma_hashmap_grow_size (h.count + (h.count >>> 1)) ECMA_PROPERTY_HASMAP_MINIMUM_SIZE
    if ctx.heap_alloc_ok = false then h
    else
      let mask := max_property_count - 1
      let pair_list :=
        ecma_hashmap_fill mask
          (List.replicate max_property_count ECMA_PROPERTY_HASHMAP_CLEAN_ENTRY)
          h.slots.enum
      { h with
        cache := 0 :: h.cache.tail,
        hashmap := some
          { max_property_count := max_property_count,
            null_count := max_property_count - h.count,
            unused_count := max_property_count - h.count,
            pair_list := pair_list } }

/-- From ecma-property-hashmap.c: ecma_property_hashmap_free; releases the
hashmap and restores every header cache slot to 1. -/
def ecma_property_hashmap_free (h : ecma_property_header_t) :
    ecma_property_header_t :=
  { h with cache := List.replicate ECMA_PROPERTY_CACHE_SIZE 1, hashmap := none }

/-- From ecma-property-hashmap.c: ecma_property_hashmap_insert.  When the
CLEAN cells drop below one eighth of the table the hashmap is freed and
recreated; otherwise the property index is written into the first
CLEAN-or-DIRTY cell of the probe sequence, unused_count is decremented, and
null_count is decremented exactly when the consumed cell was CLEAN. -/
def ecma_property_hashmap_insert (ctx : jcontext_t) (h : ecma_property_header_t)
    (name : ecma_string_t) (index : Nat) : ecma_property_header_t :=
  match h.hashmap with
  | none => h
  | some hm =>
    if hm.null_count < hm.max_property_count >>> 3 then
      ecma_property_hashmap_create ctx (ecma_property_hashmap_free h)
    else
      let step := ecma_hashmap_step_of name.hash
      let mask := hm.max_property_count - 1
      let entry := name.hash &&& mask
      match ecma_hashmap_probe_free hm.pair_list step mask entry hm.max_property_count with
      | none => h
      | some j =>
        let null_count :=
          if hm.pair_list.getD j 0 = ECMA_PROPERTY_HASHMAP_CLEAN_ENTRY then
            hm.null_count - 1
          else hm.null_count
        { h with hashmap := some { hm with
              pair_list := hm.pair_list.set j index,
              null_count := null_count,
              unused_count := hm.unused_count - 1 } }

/-- Return status of ecma_property_hashmap_delete. -/
inductive ecma_property_hashmap_delete_status where
  | ECMA_PROPERTY_HASHMAP_DELETE_NO_HASHMAP
  | ECMA_PROPERTY_HASHMAP_DELETE_HAS_HASHMAP
  | ECMA_PROPERTY_HASHMAP_DELETE_RECREATE_HASHMAP
deriving DecidableEq, Repr

/-- From ecma-property-hashmap.c: ecma_property_hashmap_delete.  The record
being deleted is identified by its slot index `idx` (pointer identity in the
C code); `p` is the record itself, whose name hash starts the probe.  The
function first increments unused_count; when the incremented count exceeds
three quarters of the table it returns the RECREATE status immediately,
otherwise it probes for the cell holding `idx` and writes the DIRTY
tombstone there. -/
def ecma_property_hashmap_delete (h : ecma_property_header_t)
    (p : ecma_property_t) (idx : Nat) :
    ecma_property_hashmap_delete_status × ecma_property_header_t :=
  match h.hashmap with
  | none =>
    (ecma_property_hashmap_delete_status.ECMA_PROPERTY_HASHMAP_DELETE_NO_HASHMAP, h)
  | some hm =>
    let hm1 := { hm with unused_count := hm.unused_count + 1 }
    if hm1.unused_count > (hm1.max_property_count * 3) >>> 2 then
      (ecma_property_hashmap_delete_status.ECMA_PROPERTY_HASHMAP_DELETE_RECREATE_HASHMAP,
        { h with hashmap := some hm1 })
    else
      let step := ecma_hashmap_step_of p.nameHash
      let mask := hm1.max_property_count - 1
      let entry := p.nameHash &&& mask
      match ecma_hashmap_probe_match hm1.pair_list idx step mask entry
          hm1.max_property_count with
      | none =>
        (ecma_property_hashmap_delete_status.ECMA_PROPERTY_HASHMAP_DELETE_HAS_HASHMAP,
          { h with hashmap := some hm1 })
      | some j =>
        let hm2 := { hm1 with pair_list := hm1.pair_list.set j ECMA_PROPERTY_HASHMAP_DIRTY_ENTRY }
        (ecma_property_hashmap_delete_status.ECMA_PROPERTY_HASHMAP_DELETE_HAS_HASHMAP,
          { h with hashmap := some hm2 })

/-- From ecma-property-hashmap.c: ecma_property_hashmap_find.  Returns the
real compressed name of the property and its index (the two out-parameters
of the C function; the returned property itself is the slot at that index),
or none. -/
def ecma_property_hashmap_find (h : ecma_property_header_t)
    (name : ecma_string_t) : Option (Nat × Nat) :=
  match h.hashmap with
  | none => none
  | some hm =>
    let step := ecma_hashmap_step_of name.hash
    let mask := hm.max_property_count - 1
    let entry := name.hash &&& mask
    match ecma_hashmap_probe_find h.slots hm.pair_list name step mask entry
        hm.max_property_count with
    | none => none
    | some idx =>
      if ECMA_IS_DIRECT_STRING name then some (name.cp, idx)
      else some ((h.slots.getD (idx - 1) default).name_cp, idx)

/-! ## Lookup cache (ecma-lcache.c) and engine state -/

/-- One lookup-cache entry (ecma_lcache_hash_entry_t): a packed
(object, name) identifier (0 meaning empty) and the property index the
entry resolves to. -/
structure ecma_lcache_hash_entry_t where
  id : Nat
  index : Nat
deriving DecidableEq, Repr

instance : Inhabited ecma_lcache_hash_entry_t := ⟨{ id := 0, index := 0 }⟩

/-- The engine state the property core touches: the per-context switches,
the process-wide lookup cache (rows of entries), and the heap of objects,
each object mapping its compressed pointer to its property-header pointer
(none models a JMEM_CP_NULL u1.property_header_cp). -/
structure jerry_engine_state_t where
  ctx : jcontext_t
  lcache : List (List ecma_lcache_hash_entry_t)
  objects : List (Nat × Option ecma_property_header_t)
deriving DecidableEq, Repr

/-- Resolve an object to its property header, or none when the object does
not exist or its property-header pointer is NULL. -/
def jerry_object_header (st : jerry_engine_state_t) (object_cp : Nat) :
    Option ecma_property_header_t :=
  match st.objects.lookup object_cp with
  | some (some h) => some h
  | _ => none

/-- Store a new property-header pointer for an object. -/
def jerry_set_object_header (st : jerry_engine_state_t) (object_cp : Nat)
    (h : Option ecma_property_header_t) : jerry_engine_state_t :=
  { st with objects := st.objects.map (fun e => if e.1 = object_cp then (object_cp, h) else e) }

/-- Replace the property record stored in slot `idx` (1-based) of a header. -/
def ecma_header_set_slot (h : ecma_property_header_t) (idx : Nat)
    (p : ecma_property_t) : ecma_property_header_t :=
  { h with slots := h.slots.set (idx - 1) p }

/-- Set or clear the LCACHED bit of the record in slot `idx` of an object. -/
def jerry_mark_property_lcached (st : jerry_engine_state_t)
    (object_cp idx : Nat) (b : Bool) : jerry_engine_state_t :=
  match jerry_object_header st object_cp with
  | some h =>
    let p := h.slots.getD (idx - 1) default
    jerry_set_object_header st object_cp
      (some (ecma_header_set_slot h idx (ecma_set_property_lcached p b)))
  | none => st

/-- From ecma-lcache.c: ecma_lcache_row_index; xor of the compressed name
and object pointers, masked to a row number. -/
def ecma_lcache_row_index (object_cp name_cp : Nat) : Nat :=
  ((name_cp ^^^ object_cp) &&& ECMA_LCACHE_HASH_MASK) >>> ECMA_LCACHE_HASH_BITSHIFT_INDEX

/-- From ecma-lcache.c: ECMA_LCACHE_CREATE_ID; packs the object pointer
above the name pointer. -/
def ECMA_LCACHE_CREATE_ID (object_cp name_cp : Nat) : Nat :=
  (object_cp <<< ECMA_LCACHE_HASH_ENTRY_ID_SHIFT) ||| name_cp

/-- Write one entry of the lookup cache. -/
def jerry_lcache_set_entry (st : jerry_engine_state_t) (row pos : Nat)
    (e : ecma_lcache_hash_entry_t) : jerry_engine_state_t :=
  { st with lcache := st.lcache.set row ((st.lcache.getD row []).set pos e) }

/-- From ecma-lcache.c: ecma_lcache_invalidate_entry; restores the entry's
property index into the MRU cache of the property header of the object
decoded from the entry id, clears the record's LCACHED bit, and empties the
entry.  (The hashmap-fronted `count == 0` indirection of the source cannot
arise in this configuration, where u1 always references the property
header.) -/
def ecma_lcache_invalidate_entry (st : jerry_engine_state_t) (row pos : Nat) :
    jerry_engine_state_t :=
  let e := (st.lcache.getD row []).getD pos default
  let object_cp := e.id >>> ECMA_LCACHE_HASH_ENTRY_ID_SHIFT
  let st1 :=
    match jerry_object_header st object_cp with
    | some h =>
      let h1 := { h with cache := [e.index, h.cache.getD 0 1, h.cache.getD 1 1] }
      jerry_set_object_header st object_cp (some h1)
    | none => st
  let st2 := jerry_mark_property_lcached st1 object_cp e.index false
  jerry_lcache_set_entry st2 row pos { e with id := 0 }

/-- From ecma-lcache.c: ecma_lcache_insert.  Scans the row for an empty
entry; with a full row, the last entry is invalidated first and the rest
shift one slot toward the end; the new entry is written and the record's
LCACHED bit is set.  (In ecma-helpers.c the call sites pass the property;
its index, which the entry stores, is the index the find paths computed.) -/
def ecma_lcache_insert (st : jerry_engine_state_t) (object_cp name_cp property_index : Nat) :
    jerry_engine_state_t :=
  let row := ecma_lcache_row_index object_cp name_cp
  let rowL := st.lcache.getD row []
  let newE : ecma_lcache_hash_entry_t :=
    { id := ECMA_LCACHE_CREATE_ID object_cp name_cp, index := property_index }
  let st2 :=
    match rowL.findIdx? (fun e => e.id = 0) with
    | some pos => jerry_lcache_set_entry st row pos newE
    | none =>
      let st1 := ecma_lcache_invalidate_entry st row (ECMA_LCACHE_HASH_ROW_LENGTH - 1)
      let row1 := st1.lcache.getD row []
      { st1 with lcache := st1.lcache.set row (newE :: row1.dropLast) }
  jerry_mark_property_lcached st2 object_cp property_index true

/-- The row scan of ecma_lcache_lookup: the first entry whose id matches and
whose resolved record has the queried name type yields its property index;
an id match with a different name type keeps scanning. -/
def ecma_lcache_lookup_row (h : Option ecma_property_header_t) (id ntype : Nat) :
    List ecma_lcache_hash_entry_t → Option Nat
  | [] => none
  | e :: rest =>
    if e.id = id then
      match h with
      | some hd =>
        if ECMA_PROPERTY_GET_NAME_TYPE (hd.slots.getD (e.index - 1) default) = ntype then
          some e.index
        else ecma_lcache_lookup_row h id ntype rest
      | none => ecma_lcache_lookup_row h id ntype rest
    else ecma_lcache_lookup_row h id ntype rest

/-- From ecma-lcache.c: ecma_lcache_lookup.  Computes the packed name (the
same fields whether the name is direct or a heap pointer), scans the row for
the packed id, and checks the resolved record's name type against the
queried one before returning the record. -/
def ecma_lcache_lookup (st : jerry_engine_state_t) (object_cp : Nat)
    (name : ecma_string_t) : Option Nat :=
  let row := ecma_lcache_row_index object_cp name.cp
  let id := ECMA_LCACHE_CREATE_ID object_cp name.cp
  ecma_lcache_lookup_row (jerry_object_header st object_cp) id name.ntype
    (st.lcache.getD row [])

/-- From the abandoned lookup-cache variant (src/unnamed/part_000):
ecma_lcache_lookup with the explicit guard that returns NULL immediately
when the object's property-header pointer is JMEM_CP_NULL. -/
def ecma_lcache_lookup_v0 (st : jerry_engine_state_t) (object_cp : Nat)
    (name : ecma_string_t) : Option Nat :=
  match st.objects.lookup object_cp with
  | some (some _) =>
    let row := ecma_lcache_row_index object_cp name.cp
    let id := ECMA_LCACHE_CREATE_ID object_cp name.cp
    ecma_lcache_lookup_row (jerry_object_header st object_cp) id name.ntype
      (st.lcache.getD row [])
  | _ => none

/-- The row scan of ecma_lcache_invalidate: position of the first entry
whose id matches. -/
def ecma_lcache_find_id_pos (id : Nat) (rowL : List ecma_lcache_hash_entry_t) :
    Option Nat :=
  rowL.findIdx? (fun e => e.id = id)

/-- From ecma-lcache.c: ecma_lcache_invalidate.  `p` is the LCACHED record
being invalidated and `idx` its slot index (pointer identity in the C code).
The row is derived from the record's stored name_cp; the scan clears the
first entry whose id matches and clears the record's LCACHED bit with it.
(The C scan asserts that a matching entry is present; with no match the
model leaves the state unchanged.) -/
def ecma_lcache_invalidate (st : jerry_engine_state_t) (object_cp : Nat)
    (p : ecma_property_t) (idx : Nat) : jerry_engine_state_t :=
  let row := ecma_lcache_row_index object_cp p.name_cp
  let id := ECMA_LCACHE_CREATE_ID object_cp p.name_cp
  match ecma_lcache_find_id_pos id (st.lcache.getD row []) with
  | some pos =>
    let st1 := jerry_mark_property_lcached st object_cp idx false
    let e := (st1.lcache.getD row []).getD pos default
    jerry_lcache_set_entry st1 row pos { e with id := 0 }
  | none => st

/-! ## Property list operations (ecma-helpers.c) -/

/-- The linear-scan loop of ecma_find_named_property: 1-based index of the
first slot matching the name (the direct-string fast path and the general
path are the two loops of the source; their per-slot tests are
ecma_property_name_matches). -/
def ecma_find_named_property_scan (slots : List ecma_property_t)
    (name : ecma_string_t) (i : Nat) : Option Nat :=
  match slots with
  | [] => none
  | p :: rest =>
    if ecma_property_name_matches p name then some i
    else ecma_find_named_property_scan rest name (i + 1)

/-- From ecma-helpers.c: ecma_find_named_property.  Consults the lookup
cache first; on a miss resolves through the hashmap when one is attached
(header cache[0] == 0) or by linear scan otherwise, and inserts a hit that
is not yet LCACHED into the lookup cache.  Returns the slot index of the
property (the C function returns the record pointer) and the resulting
state. -/
def ecma_find_named_property (st : jerry_engine_state_t) (object_cp : Nat)
    (name : ecma_string_t) : Option Nat × jerry_engine_state_t :=
  match ecma_lcache_lookup st object_cp name with
  | some idx => (some idx, st)
  | none =>
    match jerry_object_header st object_cp with
    | none => (none, st)
    | some h =>
      if h.cache.getD 0 1 = 0 then
        match ecma_property_hashmap_find h name with
        | none => (none, st)
        | some (real_name_cp, idx) =>
          if ecma_is_property_lcached (h.slots.getD (idx - 1) default) then (some idx, st)
          else (some idx, ecma_lcache_insert st object_cp real_name_cp idx)
      else
        match ecma_find_named_property_scan h.slots name 1 with
        | none => (none, st)
        | some idx =>
          let p := h.slots.getD (idx - 1) default
          let real_name_cp := if ECMA_IS_DIRECT_STRING name then name.cp else p.name_cp
          if ecma_is_property_lcached p then (some idx, st)
          else (some idx, ecma_lcache_insert st object_cp real_name_cp idx)

/-- The hashmap dispatch at the end of ecma_create_property: with a hashmap
attached (cache[0] == 0) the new index is inserted into it; otherwise, when
the new index reaches ECMA_PROPERTY_HASMAP_MINIMUM_SIZE, hashmap creation is
triggered; otherwise nothing happens. -/
inductive ecma_create_hashmap_branch where
  | no_hashmap_work
  | created_hashmap
  | inserted_into_hashmap
deriving DecidableEq, Repr

/-- Which of the two hashmap actions ecma_create_property performs, read off
the header after the new slot was appended (`index` is the new count). -/
def ecma_create_property_dispatch (h : ecma_property_header_t) (index : Nat) :
    ecma_create_hashmap_branch :=
  if h.cache.getD 0 1 = 0 then ecma_create_hashmap_branch.inserted_into_hashmap
  else if ECMA_PROPERTY_HASMAP_MINIMUM_SIZE ≤ index then
    ecma_create_hashmap_branch.created_hashmap
  else ecma_create_hashmap_branch.no_hashmap_work

/-- From ecma-helpers.c: ecma_create_property.  Allocates a fresh one-slot
list when the object has none, otherwise grows the list by one slot (slot
indices are stable; the lookup cache stores indices, so the pointer-rewrite
loop of the source has nothing to update in this model).  The new record is
written into the new slot, and the hashmap is updated per the dispatch.
Returns the new state and the new slot index. -/
def ecma_create_property (st : jerry_engine_state_t) (object_cp : Nat)
    (name : ecma_string_t) (type_and_flags : Nat) (value : Nat) :
    jerry_engine_state_t × Option Nat :=
  match st.objects.lookup object_cp with
  | none => (st, none)
  | some oh =>
    let prop : ecma_property_t :=
      { type_flags := type_and_flags ||| (name.ntype <<< ECMA_PROPERTY_NAME_TYPE_SHIFT),
        name_cp := name.cp,
        lcache_id := 0,
        nameHash := name.hash,
        value := value }
    let header1 : ecma_property_header_t :=
      match oh with
      | none =>
        { count := 1, cache := List.replicate ECMA_PROPERTY_CACHE_SIZE 1,
          slots := [prop], hashmap := none }
      | some h =>
        { h with count := h.count + 1, slots := h.slots ++ [prop] }
    let index := header1.count
    let header2 :=
      match ecma_create_property_dispatch header1 index with
      | ecma_create_hashmap_branch.inserted_into_hashmap =>
        ecma_property_hashmap_insert st.ctx header1 name index
      | ecma_create_hashmap_branch.created_hashmap =>
        ecma_property_hashmap_create st.ctx header1
      | ecma_create_hashmap_branch.no_hashmap_work => header1
    (jerry_set_object_header st object_cp (some header2), some index)

/-- From ecma-helpers.c: ecma_free_property, reduced to the parts that touch
the modelled state: an LCACHED record is invalidated in the lookup cache
(value payloads and string reference counts live outside the model). -/
def ecma_free_property (st : jerry_engine_state_t) (object_cp : Nat)
    (p : ecma_property_t) (idx : Nat) : jerry_engine_state_t :=
  if ecma_is_property_lcached p then ecma_lcache_invalidate st object_cp p idx
  else st

/-- From ecma-helpers.c: ecma_delete_property.  The record is identified by
its slot index (the source locates it by pointer identity while scanning the
list).  With a hashmap attached the hashmap delete runs first; the record is
freed (invalidating its lookup-cache entry), the slot is marked DELETED with
the deleted magic name, and a RECREATE status frees and recreates the
hashmap. -/
def ecma_delete_property (st : jerry_engine_state_t) (object_cp : Nat)
    (idx : Nat) : jerry_engine_state_t :=
  match jerry_object_header st object_cp with
  | none => st
  | some h =>
    if 1 ≤ idx ∧ idx ≤ h.count then
      let p := h.slots.getD (idx - 1) default
      let (status, h1) :=
        if h.cache.getD 0 1 = 0 then ecma_property_hashmap_delete h p idx
        else (ecma_property_hashmap_delete_status.ECMA_PROPERTY_HASHMAP_DELETE_NO_HASHMAP, h)
      let st1 := jerry_set_object_header st object_cp (some h1)
      let st2 := ecma_free_property st1 object_cp p idx
      match jerry_object_header st2 object_cp with
      | none => st2
      | some h2 =>
        let p2 := h2.slots.getD (idx - 1) default
        let h3 := ecma_header_set_slot h2 idx
          { p2 with type_flags := ECMA_PROPERTY_TYPE_DELETED,
                    name_cp := LIT_INTERNAL_MAGIC_STRING_DELETED }
        let h4 :=
          if status = ecma_property_hashmap_delete_status.ECMA_PROPERTY_HASHMAP_DELETE_RECREATE_HASHMAP then
            ecma_property_hashmap_create st.ctx (ecma_property_hashmap_free h3)
          else h3
        jerry_set_object_header st2 object_cp (some h4)
    else st

/-! ## Theorems -/

/-- Bit-level facts behind claim C8, checked for every 8-bit type_flags
value: each attribute setter realizes set-then-get, is the identity on
type_flags when setting the current value, and preserves the kind bits, the
name-type bits, the other attribute bits and the LCACHED bit. -/
theorem ecma_attr_bits_facts : ∀ x, x < 256 → ∀ c : Bool,
    (((if c then x ||| 16 else x &&& 239) &&& 16 != 0) = c
      ∧ ((x &&& 16 != 0) = c → (if c then x ||| 16 else x &&& 239) = x)
      ∧ (if c then x ||| 16 else x &&& 239) &&& 3 = x &&& 3
      ∧ (if c then x ||| 16 else x &&& 239) >>> 6 = x >>> 6
      ∧ (if c then x ||| 16 else x &&& 239) &&& 8 = x &&& 8
      ∧ (if c then x ||| 16 else x &&& 239) &&& 4 = x &&& 4
      ∧ (if c then x ||| 16 else x &&& 239) &&& 32 = x &&& 32)
    ∧ (((if c then x ||| 8 else x &&& 247) &&& 8 != 0) = c
      ∧ ((x &&& 8 != 0) = c → (if c then x ||| 8 else x &&& 247) = x)
      ∧ (if c then x ||| 8 else x &&& 247) &&& 3 = x &&& 3
      ∧ (if c then x ||| 8 else x &&& 247) >>> 6 = x >>> 6
      ∧ (if c then x ||| 8 else x &&& 247) &&& 16 = x &&& 16
      ∧ (if c then x ||| 8 else x &&& 247) &&& 4 = x &&& 4
      ∧ (if c then x ||| 8 else x &&& 247) &&& 32 = x &&& 32)
    ∧ (((if c then x ||| 4 else x &&& 251) &&& 4 != 0) = c
      ∧ ((x &&& 4 != 0) = c → (if c then x ||| 4 else x &&& 251) = x)
      ∧ (if c then x ||| 4 else x &&& 251) &&& 3 = x &&& 3
      ∧ (if c then x ||| 4 else x &&& 251) >>> 6 = x >>> 6
      ∧ (if c then x ||| 4 else x &&& 251) &&& 16 = x &&& 16
      ∧ (if c then x ||| 4 else x &&& 251) &&& 8 = x &&& 8
      ∧ (if c then x ||| 4 else x &&& 251) &&& 32 = x &&& 32) := by
  set_option maxRecDepth 4000 in decide

/-- C8: for every property record of the permitted kind and every boolean b,
setting the writable (resp. enumerable, configurable) attribute to b and
then reading it returns b; setting it to its current value leaves type_flags
unchanged; and each setter leaves the kind bits, the name-type bits, the
other attribute bits and the LCACHED bit of type_flags unchanged. -/
theorem spec_c8_attribute_set_get (p : ecma_property_t) (b : Bool)
    (hsize : p.type_flags < 256) :
    (ECMA_PROPERTY_GET_TYPE p = ECMA_PROPERTY_TYPE_NAMEDDATA →
      ecma_is_property_writable (ecma_set_property_writable_attr p b) = b
      ∧ (ecma_is_property_writable p = b →
          (ecma_set_property_writable_attr p b).type_flags = p.type_flags)
      ∧ ECMA_PROPERTY_GET_TYPE (ecma_set_property_writable_attr p b) =
          ECMA_PROPERTY_GET_TYPE p
      ∧ ECMA_PROPERTY_GET_NAME_TYPE (ecma_set_property_writable_attr p b) =
          ECMA_PROPERTY_GET_NAME_TYPE p
      ∧ ecma_is_property_enumerable (ecma_set_property_writable_attr p b) =
          ecma_is_property_enumerable p
      ∧ ecma_is_property_configurable (ecma_set_property_writable_attr p b) =
          ecma_is_property_configurable p
      ∧ ecma_is_property_lcached (ecma_set_property_writable_attr p b) =
          ecma_is_property_lcached p)
    ∧ (ECMA_PROPERTY_GET_TYPE p = ECMA_PROPERTY_TYPE_NAMEDDATA ∨
        ECMA_PROPERTY_GET_TYPE p = ECMA_PROPERTY_TYPE_NAMEDACCESSOR →
      (ecma_is_property_enumerable (ecma_set_property_enumerable_attr p b) = b
        ∧ (ecma_is_property_enumerable p = b →
            (ecma_set_property_enumerable_attr p b).type_flags = p.type_flags)
        ∧ ECMA_PROPERTY_GET_TYPE (ecma_set_property_enumerable_attr p b) =
            ECMA_PROPERTY_GET_TYPE p
        ∧ ECMA_PROPERTY_GET_NAME_TYPE (ecma_set_property_enumerable_attr p b) =
            ECMA_PROPERTY_GET_NAME_TYPE p
        ∧ ecma_is_property_writable (ecma_set_property_enumerable_attr p b) =
            ecma_is_property_writable p
        ∧ ecma_is_property_configurable (ecma_set_property_enumerable_attr p b) =
            ecma_is_property_configurable p
        ∧ ecma_is_property_lcached (ecma_set_property_enumerable_attr p b) =
            ecma_is_property_lcached p)
      ∧ (ecma_is_property_configurable (ecma_set_property_configurable_attr p b) = b
        ∧ (ecma_is_property_configurable p = b →
            (ecma_set_property_configurable_attr p b).type_flags = p.type_flags)
        ∧ ECMA_PROPERTY_GET_TYPE (ecma_set_property_configurable_attr p b) =
            ECMA_PROPERTY_GET_TYPE p
        ∧ ECMA_PROPERTY_GET_NAME_TYPE (ecma_set_property_configurable_attr p b) =
            ECMA_PROPERTY_GET_NAME_TYPE p
        ∧ ecma_is_property_writable (ecma_set_property_configurable_attr p b) =
            ecma_is_property_writable p
        ∧ ecma_is_property_enumerable (ecma_set_property_configurable_attr p b) =
            ecma_is_property_enumerable p
        ∧ ecma_is_property_lcached (ecma_set_property_configurable_attr p b) =
            ecma_is_property_lcached p)) := by
  obtain ⟨tf, nc, li, nh, v⟩ := p
  have K := ecma_attr_bits_facts tf hsize b
  obtain ⟨⟨w1, w2, w3, w4, w5, w6, w7⟩, ⟨e1, e2, e3, e4, e5, e6, e7⟩,
    ⟨c1, c2, c3, c4, c5, c6, c7⟩⟩ := K
  constructor
  · intro _
    refine ⟨?_, ?_, ?_, ?_, ?_, ?_, ?_⟩ <;>
      simp_all [ecma_is_property_writable, ecma_set_property_writable_attr,
        ecma_is_property_enumerable, ecma_is_property_configurable,
        ecma_is_property_lcached, ECMA_PROPERTY_GET_TYPE,
        ECMA_PROPERTY_GET_NAME_TYPE, ECMA_PROPERTY_FLAG_WRITABLE,
        ECMA_PROPERTY_FLAG_ENUMERABLE, ECMA_PROPERTY_FLAG_CONFIGURABLE,
        ECMA_PROPERTY_FLAG_LCACHED, ECMA_PROPERTY_TYPE_MASK,
        ECMA_PROPERTY_NAME_TYPE_SHIFT, apply_ite ecma_property_t.type_flags]
  · intro _
    constructor
    · refine ⟨?_, ?_, ?_, ?_, ?_, ?_, ?_⟩ <;>
        simp_all [ecma_is_property_writable, ecma_set_property_enumerable_attr,
          ecma_is_property_enumerable, ecma_is_property_configurable,
          ecma_is_property_lcached, ECMA_PROPERTY_GET_TYPE,
          ECMA_PROPERTY_GET_NAME_TYPE, ECMA_PROPERTY_FLAG_WRITABLE,
          ECMA_PROPERTY_FLAG_ENUMERABLE, ECMA_PROPERTY_FLAG_CONFIGURABLE,
          ECMA_PROPERTY_FLAG_LCACHED, ECMA_PROPERTY_TYPE_MASK,
          ECMA_PROPERTY_NAME_TYPE_SHIFT, apply_ite ecma_property_t.type_flags]
    · refine ⟨?_, ?_, ?_, ?_, ?_, ?_, ?_⟩ <;>
        simp_all [ecma_is_property_writable, ecma_set_property_configurable_attr,
          ecma_is_property_enumerable, ecma_is_property_configurable,
          ecma_is_property_lcached, ECMA_PROPERTY_GET_TYPE,
          ECMA_PROPERTY_GET_NAME_TYPE, ECMA_PROPERTY_FLAG_WRITABLE,
          ECMA_PROPERTY_FLAG_ENUMERABLE, ECMA_PROPERTY_FLAG_CONFIGURABLE,
          ECMA_PROPERTY_FLAG_LCACHED, ECMA_PROPERTY_TYPE_MASK,
          ECMA_PROPERTY_NAME_TYPE_SHIFT, apply_ite ecma_property_t.type_flags]

/-- Witness for C8 at the concrete record with type_flags 21 (a writable,
configurable named data property). -/
theorem spec_c8_attribute_set_get_witness :
    ((⟨21, 7, 0, 0, 0⟩ : ecma_property_t).type_flags < 256) ∧
    ecma_is_property_writable
      (ecma_set_property_writable_attr (⟨21, 7, 0, 0, 0⟩ : ecma_property_t) false) = false :=
  ⟨by decide,
    ((spec_c8_attribute_set_get (⟨21, 7, 0, 0, 0⟩ : ecma_property_t) false
      (by decide)).1 (by decide)).1⟩

/-- C9: error-reference and bytecode reference counts are 16-bit.  While the
count (kept in the bits of refs_and_flags above the abort flag) is below the
16-bit maximum, ecma_ref_error_reference adds exactly one count unit and
changes neither the abort flag nor the referenced value; once the count has
reached the maximum, it exits fatally with ERR_REF_COUNT_LIMIT instead of
wrapping.  Likewise ecma_bytecode_ref increments below UINT16_MAX and exits
fatally with ERR_REF_COUNT_LIMIT at UINT16_MAX. -/
theorem spec_c9_refcount_saturation (e : ecma_error_reference_t)
    (b : ecma_compiled_code_t) :
    (e.refs_and_flags / ECMA_ERROR_REF_ONE < 65535 →
      ecma_ref_error_reference e =
        Except.ok { e with refs_and_flags := e.refs_and_flags + ECMA_ERROR_REF_ONE }
      ∧ ∀ e2, ecma_ref_error_reference e = Except.ok e2 →
          e2.refs_and_flags / ECMA_ERROR_REF_ONE =
            e.refs_and_flags / ECMA_ERROR_REF_ONE + 1
          ∧ e2.refs_and_flags % ECMA_ERROR_REF_ONE =
            e.refs_and_flags % ECMA_ERROR_REF_ONE
          ∧ e2.value = e.value)
    ∧ (65535 ≤ e.refs_and_flags / ECMA_ERROR_REF_ONE →
        ecma_ref_error_reference e =
          Except.error jerry_fatal_code.ERR_REF_COUNT_LIMIT)
    ∧ (b.refs < 65535 →
        ecma_bytecode_ref b = Except.ok { b with refs := b.refs + 1 })
    ∧ (b.refs = 65535 →
        ecma_bytecode_ref b = Except.error jerry_fatal_code.ERR_REF_COUNT_LIMIT) := by
  have hone : ECMA_ERROR_REF_ONE = 2 := rfl
  have hmax : ECMA_ERROR_MAX_REF = 131070 := rfl
  refine ⟨?_, ?_, ?_, ?_⟩
  · intro hlt
    have hflags : e.refs_and_flags < ECMA_ERROR_MAX_REF := by
      rw [hmax]
      rw [hone] at hlt
      omega
    constructor
    · simp [ecma_ref_error_reference, hflags]
    · intro e2 he2
      simp [ecma_ref_error_reference, hflags] at he2
      subst he2
      rw [hone]
      refine ⟨?_, ?_, rfl⟩ <;> simp
  · intro hge
    have hflags : ¬ e.refs_and_flags < ECMA_ERROR_MAX_REF := by
      rw [hmax]
      rw [hone] at hge
      omega
    simp [ecma_ref_error_reference, hflags]
  · intro hlt
    simp [ecma_bytecode_ref, Nat.not_le.mpr hlt]
  · intro heq
    simp [ecma_bytecode_ref, heq]

/-- Witness for C9 at a concrete error reference (count 3, abort flag set)
and a concrete bytecode header at the saturation bound. -/
theorem spec_c9_refcount_saturation_witness :
    ((⟨7, 40⟩ : ecma_error_reference_t).refs_and_flags / ECMA_ERROR_REF_ONE < 65535) ∧
    ecma_ref_error_reference (⟨7, 40⟩ : ecma_error_reference_t) =
      Except.ok (⟨9, 40⟩ : ecma_error_reference_t) ∧
    ecma_bytecode_ref (⟨65535, 0⟩ : ecma_compiled_code_t) =
      Except.error jerry_fatal_code.ERR_REF_COUNT_LIMIT :=
  ⟨by decide,
    ((spec_c9_refcount_saturation (⟨7, 40⟩ : ecma_error_reference_t)
        (⟨65535, 0⟩ : ecma_compiled_code_t)).1 (by decide)).1,
    (spec_c9_refcount_saturation (⟨7, 40⟩ : ecma_error_reference_t)
        (⟨65535, 0⟩ : ecma_compiled_code_t)).2.2.2 rfl⟩

/-- Masking with a power-of-two mask equals taking the remainder. -/
theorem ecma_hashmap_probe_next_mod (k step e : Nat) :
    ecma_hashmap_probe_next step (2 ^ k - 1) e = (e + step) % 2 ^ k := by
  unfold ecma_hashmap_probe_next
  exact Nat.and_pow_two_sub_one_eq_mod (e + step) k

/-- Closed form of the probe sequence: the position after `i` steps is
`(start + i * step) mod 2^k`. -/
theorem ecma_hashmap_probe_pos_formula (k step start : Nat) (hstart : start < 2 ^ k) :
    ∀ i, ecma_hashmap_probe_pos start step (2 ^ k - 1) i = (start + i * step) % 2 ^ k := by
  intro i
  induction i with
  | zero => simp [ecma_hashmap_probe_pos, Nat.mod_eq_of_lt hstart]
  | succ n ih =>
    rw [ecma_hashmap_probe_pos, ih, ecma_hashmap_probe_next_mod]
    conv_rhs => rw [Nat.succ_mul, ← Nat.add_assoc]
    exact Nat.mod_add_mod _ _ _

/-- Every entry of the stepping table is odd, hence coprime with 2. -/
theorem ecma_property_hashmap_steps_coprime_two :
    ∀ m, m ≤ 7 → Nat.Coprime (ecma_property_hashmap_steps.getD m 0) 2 := by
  decide

/-- Injectivity of the probe sequence over one full cycle, for any step
coprime with 2 and any power-of-two table size. -/
theorem ecma_hashmap_probe_pos_injective (k step start : Nat)
    (hcop : Nat.Coprime step 2) (hstart : start < 2 ^ k) :
    ∀ i < 2 ^ k, ∀ j < 2 ^ k,
      ecma_hashmap_probe_pos start step (2 ^ k - 1) i =
        ecma_hashmap_probe_pos start step (2 ^ k - 1) j → i = j := by
  intro i hi j hj h
  rw [ecma_hashmap_probe_pos_formula k step start hstart,
      ecma_hashmap_probe_pos_formula k step start hstart] at h
  have hmod : Nat.ModEq (2 ^ k) (start + i * step) (start + j * step) := h
  have hms : Nat.ModEq (2 ^ k) (i * step) (j * step) :=
    Nat.ModEq.add_left_cancel' start hmod
  have hij : Nat.ModEq (2 ^ k) i j :=
    Nat.ModEq.cancel_right_of_coprime (Nat.Coprime.pow_left k hcop.symm) hms
  calc i = i % 2 ^ k := (Nat.mod_eq_of_lt hi).symm
    _ = j % 2 ^ k := hij
    _ = j := Nat.mod_eq_of_lt hj

/-- Surjectivity of the probe sequence over one full cycle: every cell is
reached within 2^k steps. -/
theorem ecma_hashmap_probe_pos_surjective (k step start : Nat)
    (hcop : Nat.Coprime step 2) (hstart : start < 2 ^ k) :
    ∀ t < 2 ^ k, ∃ i < 2 ^ k,
      ecma_hashmap_probe_pos start step (2 ^ k - 1) i = t := by
  have hNpos : 0 < 2 ^ k := Nat.pos_pow_of_pos k (by decide)
  have hinj := ecma_hashmap_probe_pos_injective k step start hcop hstart
  have hlt : ∀ i, ecma_hashmap_probe_pos start step (2 ^ k - 1) i < 2 ^ k := by
    intro i
    rw [ecma_hashmap_probe_pos_formula k step start hstart]
    exact Nat.mod_lt _ hNpos
  have hfi : Function.Injective
      (fun i : Fin (2 ^ k) =>
        (⟨ecma_hashmap_probe_pos start step (2 ^ k - 1) i.1,
          hlt i.1⟩ : Fin (2 ^ k))) := by
    intro a b hab
    exact Fin.ext (hinj a.1 a.2 b.1 b.2 (congrArg Fin.val hab))
  have hfs := Finite.injective_iff_surjective.mp hfi
  intro t ht
  obtain ⟨i, hi⟩ := hfs ⟨t, ht⟩
  exact ⟨i.1, i.2, congrArg Fin.val hi⟩

/-- The step selected by any hash is coprime with two. -/
theorem ecma_hashmap_step_of_coprime (hash : Nat) :
    Nat.Coprime (ecma_hashmap_step_of hash) 2 := by
  unfold ecma_hashmap_step_of
  exact ecma_property_hashmap_steps_coprime_two _ Nat.and_le_right

/-- C3: for every power-of-two table size 2^k with k at least 5 (size at
least 32), every hash value, and the step chosen from the prime stepping
table, the probe sequence entry, entry+step, entry+2*step, ... (all modulo
the table size, as computed by masking) visits all cells exactly once (its
first 2^k positions are pairwise distinct and cover every cell) and returns
to the start index only after 2^k steps; hence if a CLEAN cell exists, the
probe loop reaches one within 2^k steps. -/
theorem spec_c3_probe_full_cycle (k hash start : Nat) (_hk : 5 ≤ k)
    (hstart : start < 2 ^ k) :
    (∀ i < 2 ^ k, ∀ j < 2 ^ k,
      ecma_hashmap_probe_pos start (ecma_hashmap_step_of hash) (2 ^ k - 1) i =
        ecma_hashmap_probe_pos start (ecma_hashmap_step_of hash) (2 ^ k - 1) j → i = j)
    ∧ (∀ t < 2 ^ k, ∃ i < 2 ^ k,
        ecma_hashmap_probe_pos start (ecma_hashmap_step_of hash) (2 ^ k - 1) i = t)
    ∧ ecma_hashmap_probe_pos start (ecma_hashmap_step_of hash) (2 ^ k - 1) (2 ^ k) = start
    ∧ (∀ cells : List Nat, cells.length = 2 ^ k →
        ECMA_PROPERTY_HASHMAP_CLEAN_ENTRY ∈ cells →
        ∃ i < 2 ^ k,
          cells.getD
            (ecma_hashmap_probe_pos start (ecma_hashmap_step_of hash) (2 ^ k - 1) i) 0 =
            ECMA_PROPERTY_HASHMAP_CLEAN_ENTRY) := by
  have hcop : Nat.Coprime (ecma_hashmap_step_of hash) 2 :=
    ecma_hashmap_step_of_coprime hash
  have hinj := ecma_hashmap_probe_pos_injective k (ecma_hashmap_step_of hash) start hcop hstart
  have hsurj := ecma_hashmap_probe_pos_surjective k (ecma_hashmap_step_of hash) start hcop hstart
  refine ⟨hinj, hsurj, ?_, ?_⟩
  · rw [ecma_hashmap_probe_pos_formula k (ecma_hashmap_step_of hash) start hstart]
    rw [Nat.add_mul_mod_self_left]
    exact Nat.mod_eq_of_lt hstart
  · intro cells hlen hmem
    obtain ⟨t, ht, hcell⟩ := List.mem_iff_getElem.mp hmem
    obtain ⟨i, hi, hpos⟩ := hsurj t (hlen ▸ ht)
    refine ⟨i, hi, ?_⟩
    rw [hpos, List.getD_eq_getElem cells 0 (hlen ▸ (hlen ▸ ht))]
    exact hcell

/-- Witness for C3 at table size 32 (k = 5), hash 0, start index 0: the
probe returns to the start after exactly 32 steps. -/
theorem spec_c3_probe_full_cycle_witness :
    (5 ≤ 5 ∧ (0 : Nat) < 2 ^ 5) ∧
    ecma_hashmap_probe_pos 0 (ecma_hashmap_step_of 0) (2 ^ 5 - 1) (2 ^ 5) = 0 :=
  ⟨⟨le_refl 5, by decide⟩, (spec_c3_probe_full_cycle 5 0 0 (le_refl 5) (by decide)).2.2.1⟩

/-- Unfolding equation of the size-selection loop. -/
theorem ecma_hashmap_grow_size_eq (target max : Nat) :
    ecma_hashmap_grow_size target max =
      if 0 < max ∧ max < target then ecma_hashmap_grow_size target (2 * max) else max := by
  rw [ecma_hashmap_grow_size]
  split <;> rfl

/-- Powers of two are never divisible by three. -/
theorem two_pow_mod_three (j : Nat) : 2 ^ j % 3 = 1 ∨ 2 ^ j % 3 = 2 := by
  induction j with
  | zero => left; rfl
  | succ n ih =>
    have hpow : 2 ^ (n + 1) = 2 * 2 ^ n := by ring
    rcases ih with h | h <;> omega

/-- The size-selection loop started at the power 2^a returns the smallest
power of two that is at least 2^a and at least the target. -/
theorem ecma_hashmap_grow_size_spec (target : Nat) :
    ∀ d a, target - 2 ^ a ≤ d →
      (∃ j, a ≤ j ∧ ecma_hashmap_grow_size target (2 ^ a) = 2 ^ j)
      ∧ target ≤ ecma_hashmap_grow_size target (2 ^ a)
      ∧ (∀ b, a ≤ b → target ≤ 2 ^ b → ecma_hashmap_grow_size target (2 ^ a) ≤ 2 ^ b) := by
  intro d
  induction d with
  | zero =>
    intro a hd
    have hta : target ≤ 2 ^ a := by omega
    have hstop : ecma_hashmap_grow_size target (2 ^ a) = 2 ^ a := by
      rw [ecma_hashmap_grow_size_eq]
      have hnc : ¬ (0 < 2 ^ a ∧ 2 ^ a < target) := by
        rintro ⟨-, hlt⟩
        omega
      rw [if_neg hnc]
    refine ⟨⟨a, le_refl a, hstop⟩, by rw [hstop]; exact hta, ?_⟩
    intro b hab _
    rw [hstop]
    exact Nat.pow_le_pow_right (by decide) hab
  | succ n ih =>
    intro a hd
    by_cases hta : target ≤ 2 ^ a
    · have hstop : ecma_hashmap_grow_size target (2 ^ a) = 2 ^ a := by
        rw [ecma_hashmap_grow_size_eq]
        have hnc : ¬ (0 < 2 ^ a ∧ 2 ^ a < target) := by
          rintro ⟨-, hlt⟩
          omega
        rw [if_neg hnc]
      refine ⟨⟨a, le_refl a, hstop⟩, by rw [hstop]; exact hta, ?_⟩
      intro b hab _
      rw [hstop]
      exact Nat.pow_le_pow_right (by decide) hab
    · have hlt : 2 ^ a < target := by omega
      have hpos : 0 < 2 ^ a := Nat.pos_pow_of_pos a (by decide)
      have hstep : ecma_hashmap_grow_size target (2 ^ a) =
          ecma_hashmap_grow_size target (2 ^ (a + 1)) := by
        rw [ecma_hashmap_grow_size_eq]
        have hcond : 0 < 2 ^ a ∧ 2 ^ a < target := ⟨hpos, hlt⟩
        rw [if_pos hcond, show 2 * 2 ^ a = 2 ^ (a + 1) by ring]
      have hd2 : target - 2 ^ (a + 1) ≤ n := by
        have h2 : 2 ^ (a + 1) = 2 * 2 ^ a := by ring
        omega
      obtain ⟨hj, hle, hmin⟩ := ih (a + 1) hd2
      refine ⟨?_, by rw [hstep]; exact hle, ?_⟩
      · obtain ⟨j, haj, hjj⟩ := hj
        exact ⟨j, Nat.le_of_succ_le haj, by rw [hstep]; exact hjj⟩
      · intro b hab htb
        have hab1 : a + 1 ≤ b := by
          have : 2 ^ a < 2 ^ b := lt_of_lt_of_le hlt htb
          have := Nat.pow_lt_pow_iff_right (a := 2) (by decide) |>.mp this
          omega
        rw [hstep]
        exact hmin b hab1 htb

/-- When the allocation switch is ON, the count is at least half the
minimum size, and the allocation succeeds, hashmap creation builds exactly
the table of the source: the grown power-of-two size, null and unused
counters at size minus count, the filled cell array, and cache[0] cleared. -/
theorem ecma_property_hashmap_create_built (ctx : jcontext_t)
    (h : ecma_property_header_t)
    (h1 : ctx.ecma_prop_hashmap_alloc_on = true)
    (h2 : ¬ h.count < ECMA_PROPERTY_HASMAP_MINIMUM_SIZE / 2)
    (h3 : ctx.heap_alloc_ok = true) :
    ecma_property_hashmap_create ctx h =
      { h with
        cache := 0 :: h.cache.tail,
        hashmap := some
          { max_property_count :=
              ecma_hashmap_grow_size (h.count + (h.count >>> 1))
                ECMA_PROPERTY_HASMAP_MINIMUM_SIZE,
            null_count :=
              ecma_hashmap_grow_size (h.count + (h.count >>> 1))
                ECMA_PROPERTY_HASMAP_MINIMUM_SIZE - h.count,
            unused_count :=
              ecma_hashmap_grow_size (h.count + (h.count >>> 1))
                ECMA_PROPERTY_HASMAP_MINIMUM_SIZE - h.count,
            pair_list :=
              ecma_hashmap_fill
                (ecma_hashmap_grow_size (h.count + (h.count >>> 1))
                  ECMA_PROPERTY_HASMAP_MINIMUM_SIZE - 1)
                (List.replicate
                  (ecma_hashmap_grow_size (h.count + (h.count >>> 1))
                    ECMA_PROPERTY_HASMAP_MINIMUM_SIZE)
                  ECMA_PROPERTY_HASHMAP_CLEAN_ENTRY)
                h.slots.enum } } := by
  unfold ecma_property_hashmap_create
  rw [if_neg (by simp [h1]), if_neg h2, if_neg (by simp [h3])]

/-- C4: hashmap create(list_header) is a no-op unless the context's
hashmap-allocation switch is ON and the list's property count is at least
ECMA_PROPERTY_HASMAP_MINIMUM_SIZE/2 = 16; when it does build (switch ON,
count at least 16, allocation succeeding), the chosen table size
max_property_count is the smallest power of two, at least 32, not below
count + count/2, and at least one third of the cells are free:
null_count = max - count and max/3 ≤ null_count for every property count. -/
theorem spec_c4_hashmap_create_policy (ctx : jcontext_t)
    (h : ecma_property_header_t) :
    (¬ (ctx.ecma_prop_hashmap_alloc_on = true ∧
        ECMA_PROPERTY_HASMAP_MINIMUM_SIZE / 2 ≤ h.count) →
      ecma_property_hashmap_create ctx h = h)
    ∧ (ctx.ecma_prop_hashmap_alloc_on = true →
        ECMA_PROPERTY_HASMAP_MINIMUM_SIZE / 2 ≤ h.count →
        ctx.heap_alloc_ok = true →
      ∃ hm, (ecma_property_hashmap_create ctx h).hashmap = some hm
        ∧ (∃ j, hm.max_property_count = 2 ^ j)
        ∧ ECMA_PROPERTY_HASMAP_MINIMUM_SIZE ≤ hm.max_property_count
        ∧ h.count + h.count / 2 ≤ hm.max_property_count
        ∧ (∀ p, (∃ j, p = 2 ^ j) → ECMA_PROPERTY_HASMAP_MINIMUM_SIZE ≤ p →
            h.count + h.count / 2 ≤ p → hm.max_property_count ≤ p)
        ∧ hm.null_count = hm.max_property_count - h.count
        ∧ hm.max_property_count / 3 ≤ hm.null_count) := by
  have hC : ECMA_PROPERTY_HASMAP_MINIMUM_SIZE = 32 := rfl
  constructor
  · intro hno
    unfold ecma_property_hashmap_create
    rcases hb : ctx.ecma_prop_hashmap_alloc_on with _ | _
    · rw [if_pos (by simp [hb])]
    · have hcnt : h.count < ECMA_PROPERTY_HASMAP_MINIMUM_SIZE / 2 := by
        rw [hC]
        by_contra hge
        exact hno ⟨hb, by rw [hC]; omega⟩
      rw [if_neg (by simp [hb]), if_pos hcnt]
  · intro h1 h2 h3
    have hsr : h.count >>> 1 = h.count / 2 := Nat.shiftRight_one h.count
    have hgrow := ecma_hashmap_grow_size_spec (h.count + (h.count >>> 1))
      (h.count + (h.count >>> 1)) 5 (by omega)
    obtain ⟨⟨j, h5j, hjeq⟩, hle, hminl⟩ := hgrow
    have h32 : (2 : Nat) ^ 5 = ECMA_PROPERTY_HASMAP_MINIMUM_SIZE := rfl
    rw [h32] at hjeq hle hminl
    rw [ecma_property_hashmap_create_built ctx h h1 (by omega) h3]
    refine ⟨_, rfl, ⟨j, hjeq⟩, ?_, ?_, ?_, rfl, ?_⟩
    · rw [hjeq]
      calc ECMA_PROPERTY_HASMAP_MINIMUM_SIZE = 2 ^ 5 := rfl
        _ ≤ 2 ^ j := Nat.pow_le_pow_right (by decide) h5j
    · rw [← hsr]
      exact hle
    · intro p hp h32p htp
      obtain ⟨b, hb⟩ := hp
      have h5b : 5 ≤ b := by
        have : (2 : Nat) ^ 5 ≤ 2 ^ b := by
          rw [← hb]
          rw [hC] at h32p
          omega
        exact (Nat.pow_le_pow_iff_right (by decide)).mp this
      rw [hb]
      exact hminl b h5b (by rw [hsr, ← hb]; exact htp)
    · have hmod := two_pow_mod_three j
      rw [hjeq] at hle ⊢
      rw [hsr] at hle
      rw [hC] at h2
      show 2 ^ j / 3 ≤ 2 ^ j - h.count
      omega

/-- Witness for C4 at a header with 20 slots and a permitting context: the
built table has 32 cells and 12 free cells. -/
theorem spec_c4_hashmap_create_policy_witness :
    ((⟨true, true⟩ : jcontext_t).ecma_prop_hashmap_alloc_on = true ∧
      ECMA_PROPERTY_HASMAP_MINIMUM_SIZE / 2 ≤
        (⟨20, [1, 1, 1], [], none⟩ : ecma_property_header_t).count ∧
      (⟨true, true⟩ : jcontext_t).heap_alloc_ok = true) ∧
    (∃ hm, (ecma_property_hashmap_create ⟨true, true⟩
        ⟨20, [1, 1, 1], [], none⟩).hashmap = some hm
      ∧ (∃ j, hm.max_property_count = 2 ^ j)
      ∧ ECMA_PROPERTY_HASMAP_MINIMUM_SIZE ≤ hm.max_property_count
      ∧ (⟨20, [1, 1, 1], [], none⟩ : ecma_property_header_t).count +
          (⟨20, [1, 1, 1], [], none⟩ : ecma_property_header_t).count / 2 ≤
          hm.max_property_count
      ∧ (∀ p, (∃ j, p = 2 ^ j) → ECMA_PROPERTY_HASMAP_MINIMUM_SIZE ≤ p →
          (⟨20, [1, 1, 1], [], none⟩ : ecma_property_header_t).count +
            (⟨20, [1, 1, 1], [], none⟩ : ecma_property_header_t).count / 2 ≤ p →
          hm.max_property_count ≤ p)
      ∧ hm.null_count = hm.max_property_count -
          (⟨20, [1, 1, 1], [], none⟩ : ecma_property_header_t).count
      ∧ hm.max_property_count / 3 ≤ hm.null_count) :=
  ⟨⟨rfl, by decide, rfl⟩,
    (spec_c4_hashmap_create_policy ⟨true, true⟩ ⟨20, [1, 1, 1], [], none⟩).2
      rfl (by decide) rfl⟩

/-- Shifting the probe sequence by one step. -/
theorem ecma_hashmap_probe_pos_shift (start step mask : Nat) :
    ∀ i, ecma_hashmap_probe_pos start step mask (i + 1) =
      ecma_hashmap_probe_pos (ecma_hashmap_probe_next step mask start) step mask i := by
  intro i
  induction i with
  | zero => rfl
  | succ n ih =>
    rw [ecma_hashmap_probe_pos, ih, ecma_hashmap_probe_pos]

/-- The free-cell probe loop returns the first CLEAN-or-DIRTY cell along the
probe sequence, whenever one is reachable within the fuel. -/
theorem ecma_hashmap_probe_free_spec (pair_list : List Nat) (step mask : Nat) :
    ∀ fuel start,
      (∃ i < fuel, ECMA_PROPERTY_HASHMAP_DIRTY_ENTRY ≤
          pair_list.getD (ecma_hashmap_probe_pos start step mask i) 0) →
      ∃ n < fuel,
        ecma_hashmap_probe_free pair_list step mask start fuel =
          some (ecma_hashmap_probe_pos start step mask n)
        ∧ ECMA_PROPERTY_HASHMAP_DIRTY_ENTRY ≤
            pair_list.getD (ecma_hashmap_probe_pos start step mask n) 0
        ∧ ∀ m < n, pair_list.getD (ecma_hashmap_probe_pos start step mask m) 0 <
            ECMA_PROPERTY_HASHMAP_DIRTY_ENTRY := by
  intro fuel
  induction fuel with
  | zero =>
    intro start hex
    obtain ⟨i, hi, -⟩ := hex
    omega
  | succ f ih =>
    intro start hex
    by_cases h0 : ECMA_PROPERTY_HASHMAP_DIRTY_ENTRY ≤ pair_list.getD start 0
    · refine ⟨0, by omega, ?_, ?_, by omega⟩
      · simp only [ecma_hashmap_probe_free]
        rw [if_pos h0]
        rfl
      · simpa [ecma_hashmap_probe_pos] using h0
    · obtain ⟨i, hif, hcell⟩ := hex
      have hi0 : i ≠ 0 := by
        intro hz
        subst hz
        exact h0 (by simpa [ecma_hashmap_probe_pos] using hcell)
      have hex2 : ∃ i2 < f, ECMA_PROPERTY_HASHMAP_DIRTY_ENTRY ≤
          pair_list.getD
            (ecma_hashmap_probe_pos (ecma_hashmap_probe_next step mask start) step mask i2)
            0 := by
        refine ⟨i - 1, by omega, ?_⟩
        rw [← ecma_hashmap_probe_pos_shift]
        have hfix : i - 1 + 1 = i := by omega
        rw [hfix]
        exact hcell
      obtain ⟨n, hnf, heq, hcell2, hfirst⟩ := ih (ecma_hashmap_probe_next step mask start) hex2
      refine ⟨n + 1, by omega, ?_, ?_, ?_⟩
      · simp only [ecma_hashmap_probe_free]
        rw [if_neg h0, heq, ecma_hashmap_probe_pos_shift]
      · rw [ecma_hashmap_probe_pos_shift]
        exact hcell2
      · intro m hm
        match m with
        | 0 =>
          simpa [ecma_hashmap_probe_pos] using Nat.lt_of_not_le h0
        | m2 + 1 =>
          rw [ecma_hashmap_probe_pos_shift]
          exact hfirst m2 (by omega)

/-- Hashmap create and free keep the property list itself (count and slots)
unchanged. -/
theorem ecma_property_hashmap_create_preserves_list (ctx : jcontext_t)
    (x : ecma_property_header_t) :
    (ecma_property_hashmap_create ctx x).count = x.count ∧
    (ecma_property_hashmap_create ctx x).slots = x.slots := by
  unfold ecma_property_hashmap_create
  split
  · exact ⟨rfl, rfl⟩
  · split
    · exact ⟨rfl, rfl⟩
    · split
      · exact ⟨rfl, rfl⟩
      · exact ⟨rfl, rfl⟩

/-- C5: hashmap insert.  If on entry null_count is below one eighth of the
table, the hashmap is freed and rebuilt from the property list (which the
rebuild leaves unchanged, so the new property, already in the list, stays
reachable) and the function returns; otherwise the index is written into the
first CLEAN-or-DIRTY cell along the probe sequence, unused_count drops by
one, and null_count drops only when the consumed cell was CLEAN. -/
theorem spec_c5_hashmap_insert (ctx : jcontext_t) (h : ecma_property_header_t)
    (hm : ecma_property_hashmap_t) (name : ecma_string_t) (index k : Nat)
    (hhm : h.hashmap = some hm)
    (hk : 5 ≤ k)
    (hmax : hm.max_property_count = 2 ^ k)
    (hlen : hm.pair_list.length = hm.max_property_count)
    (hnullle : hm.null_count ≤ hm.pair_list.count ECMA_PROPERTY_HASHMAP_CLEAN_ENTRY) :
    (hm.null_count < hm.max_property_count >>> 3 →
      ecma_property_hashmap_insert ctx h name index =
        ecma_property_hashmap_create ctx (ecma_property_hashmap_free h)
      ∧ (ecma_property_hashmap_insert ctx h name index).count = h.count
      ∧ (ecma_property_hashmap_insert ctx h name index).slots = h.slots)
    ∧ (¬ hm.null_count < hm.max_property_count >>> 3 →
      ∃ n < hm.max_property_count,
        (∀ m < n,
          hm.pair_list.getD
            (ecma_hashmap_probe_pos (name.hash &&& (hm.max_property_count - 1))
              (ecma_hashmap_step_of name.hash) (hm.max_property_count - 1) m) 0 <
            ECMA_PROPERTY_HASHMAP_DIRTY_ENTRY)
        ∧ ECMA_PROPERTY_HASHMAP_DIRTY_ENTRY ≤
            hm.pair_list.getD
              (ecma_hashmap_probe_pos (name.hash &&& (hm.max_property_count - 1))
                (ecma_hashmap_step_of name.hash) (hm.max_property_count - 1) n) 0
        ∧ ecma_property_hashmap_insert ctx h name index =
            { h with hashmap := some { hm with
                pair_list := hm.pair_list.set
                  (ecma_hashmap_probe_pos (name.hash &&& (hm.max_property_count - 1))
                    (ecma_hashmap_step_of name.hash) (hm.max_property_count - 1) n)
                  index,
                null_count :=
                  if hm.pair_list.getD
                      (ecma_hashmap_probe_pos (name.hash &&& (hm.max_property_count - 1))
                        (ecma_hashmap_step_of name.hash) (hm.max_property_count - 1) n) 0 =
                      ECMA_PROPERTY_HASHMAP_CLEAN_ENTRY
                  then hm.null_count - 1 else hm.null_count,
                unused_count := hm.unused_count - 1 } }) := by
  constructor
  · intro hlow
    have heq : ecma_property_hashmap_insert ctx h name index =
        ecma_property_hashmap_create ctx (ecma_property_hashmap_free h) := by
      simp only [ecma_property_hashmap_insert, hhm]
      rw [if_pos hlow]
    have hpres := ecma_property_hashmap_create_preserves_list ctx (ecma_property_hashmap_free h)
    exact ⟨heq, by rw [heq, hpres.1]; rfl, by rw [heq, hpres.2]; rfl⟩
  · intro hhigh
    have hNpos : 0 < 2 ^ k := Nat.pos_pow_of_pos k (by decide)
    have hcop := ecma_hashmap_step_of_coprime name.hash
    have hentry : name.hash &&& (hm.max_property_count - 1) < 2 ^ k := by
      rw [hmax, Nat.and_pow_two_sub_one_eq_mod]
      exact Nat.mod_lt _ hNpos
    have hnull1 : 0 < hm.null_count := by
      have h8 : (2 : Nat) ^ 5 ≤ 2 ^ k := Nat.pow_le_pow_right (by decide) hk
      have hdv : hm.max_property_count >>> 3 = hm.max_property_count / 8 := by
        rw [Nat.shiftRight_eq_div_pow]
      rw [hdv, hmax] at hhigh
      omega
    have hmem : ECMA_PROPERTY_HASHMAP_CLEAN_ENTRY ∈ hm.pair_list := by
      have hc : 0 < hm.pair_list.count ECMA_PROPERTY_HASHMAP_CLEAN_ENTRY := by omega
      exact List.count_pos_iff.mp hc
    obtain ⟨t, ht, hcell⟩ := List.mem_iff_getElem.mp hmem
    have ht2 : t < 2 ^ k := by
      rw [hlen, hmax] at ht
      exact ht
    obtain ⟨i, hi, hpos⟩ :=
      ecma_hashmap_probe_pos_surjective k (ecma_hashmap_step_of name.hash)
        (name.hash &&& (hm.max_property_count - 1)) hcop hentry t ht2
    have hex : ∃ i2 < hm.max_property_count, ECMA_PROPERTY_HASHMAP_DIRTY_ENTRY ≤
        hm.pair_list.getD
          (ecma_hashmap_probe_pos (name.hash &&& (hm.max_property_count - 1))
            (ecma_hashmap_step_of name.hash) (hm.max_property_count - 1) i2) 0 := by
      refine ⟨i, by rw [hmax]; exact hi, ?_⟩
      have hmask : hm.max_property_count - 1 = 2 ^ k - 1 := by rw [hmax]
      rw [hmask] at hpos
      rw [hmask, hpos, List.getD_eq_getElem hm.pair_list 0 ht, hcell]
      decide
    obtain ⟨n, hn, heq, hcelln, hfirst⟩ :=
      ecma_hashmap_probe_free_spec hm.pair_list (ecma_hashmap_step_of name.hash)
        (hm.max_property_count - 1) hm.max_property_count
        (name.hash &&& (hm.max_property_count - 1)) hex
    refine ⟨n, hn, hfirst, hcelln, ?_⟩
    simp only [ecma_property_hashmap_insert, hhm]
    rw [if_neg hhigh, heq]

/-- Witness for C5: inserting index 1 under hash 0 into a fresh 32-cell
table with 20 free cells takes the write branch, consumes a CLEAN cell and
decrements both counters. -/
theorem spec_c5_hashmap_insert_witness :
    (¬ (20 : Nat) < 32 >>> 3) ∧
    (∃ n < (32 : Nat),
      (∀ m < n,
        (List.replicate 32 ECMA_PROPERTY_HASHMAP_CLEAN_ENTRY).getD
          (ecma_hashmap_probe_pos (0 &&& (32 - 1)) (ecma_hashmap_step_of 0) (32 - 1) m) 0 <
          ECMA_PROPERTY_HASHMAP_DIRTY_ENTRY)
      ∧ ECMA_PROPERTY_HASHMAP_DIRTY_ENTRY ≤
          (List.replicate 32 ECMA_PROPERTY_HASHMAP_CLEAN_ENTRY).getD
            (ecma_hashmap_probe_pos (0 &&& (32 - 1)) (ecma_hashmap_step_of 0) (32 - 1) n) 0
      ∧ ecma_property_hashmap_insert ⟨true, true⟩
          ⟨2, [0, 1, 1], [],
            some ⟨32, 20, 20, List.replicate 32 ECMA_PROPERTY_HASHMAP_CLEAN_ENTRY⟩⟩
          ⟨2, 5, 0⟩ 1 =
          ⟨2, [0, 1, 1], [],
            some ⟨32,
              (if (List.replicate 32 ECMA_PROPERTY_HASHMAP_CLEAN_ENTRY).getD
                  (ecma_hashmap_probe_pos (0 &&& (32 - 1)) (ecma_hashmap_step_of 0)
                    (32 - 1) n) 0 =
                  ECMA_PROPERTY_HASHMAP_CLEAN_ENTRY then 20 - 1 else 20),
              20 - 1,
              (List.replicate 32 ECMA_PROPERTY_HASHMAP_CLEAN_ENTRY).set
                (ecma_hashmap_probe_pos (0 &&& (32 - 1)) (ecma_hashmap_step_of 0)
                  (32 - 1) n) 1⟩⟩) :=
  ⟨by decide,
    (spec_c5_hashmap_insert ⟨true, true⟩
      ⟨2, [0, 1, 1], [],
        some ⟨32, 20, 20, List.replicate 32 ECMA_PROPERTY_HASHMAP_CLEAN_ENTRY⟩⟩
      ⟨32, 20, 20, List.replicate 32 ECMA_PROPERTY_HASHMAP_CLEAN_ENTRY⟩
      ⟨2, 5, 0⟩ 1 5 rfl (by decide) rfl (by decide) (by decide)).2 (by decide)⟩

/-- The delete probe loop returns the first cell along the probe sequence
that is live and holds the searched property index, whenever one is
reachable within the fuel. -/
theorem ecma_hashmap_probe_match_spec (pair_list : List Nat) (idx step mask : Nat) :
    ∀ fuel start,
      (∃ i < fuel,
        pair_list.getD (ecma_hashmap_probe_pos start step mask i) 0 <
          ECMA_PROPERTY_HASHMAP_DIRTY_ENTRY ∧
        pair_list.getD (ecma_hashmap_probe_pos start step mask i) 0 = idx) →
      ∃ n < fuel,
        ecma_hashmap_probe_match pair_list idx step mask start fuel =
          some (ecma_hashmap_probe_pos start step mask n)
        ∧ pair_list.getD (ecma_hashmap_probe_pos start step mask n) 0 = idx
        ∧ ∀ m < n,
            ¬ (pair_list.getD (ecma_hashmap_probe_pos start step mask m) 0 <
                ECMA_PROPERTY_HASHMAP_DIRTY_ENTRY ∧
              pair_list.getD (ecma_hashmap_probe_pos start step mask m) 0 = idx) := by
  intro fuel
  induction fuel with
  | zero =>
    intro start hex
    obtain ⟨i, hi, -⟩ := hex
    omega
  | succ f ih =>
    intro start hex
    by_cases h0 : pair_list.getD start 0 < ECMA_PROPERTY_HASHMAP_DIRTY_ENTRY ∧
        pair_list.getD start 0 = idx
    · refine ⟨0, by omega, ?_, ?_, by omega⟩
      · simp only [ecma_hashmap_probe_match]
        rw [if_pos h0]
        rfl
      · simpa [ecma_hashmap_probe_pos] using h0.2
    · obtain ⟨i, hif, hcell⟩ := hex
      have hi0 : i ≠ 0 := by
        intro hz
        subst hz
        exact h0 (by simpa [ecma_hashmap_probe_pos] using hcell)
      have hex2 : ∃ i2 < f,
          pair_list.getD
            (ecma_hashmap_probe_pos (ecma_hashmap_probe_next step mask start) step mask i2) 0 <
            ECMA_PROPERTY_HASHMAP_DIRTY_ENTRY ∧
          pair_list.getD
            (ecma_hashmap_probe_pos (ecma_hashmap_probe_next step mask start) step mask i2) 0 =
            idx := by
        refine ⟨i - 1, by omega, ?_⟩
        rw [← ecma_hashmap_probe_pos_shift]
        have hfix : i - 1 + 1 = i := by omega
        rw [hfix]
        exact hcell
      obtain ⟨n, hnf, heq, hcell2, hfirst⟩ := ih (ecma_hashmap_probe_next step mask start) hex2
      refine ⟨n + 1, by omega, ?_, ?_, ?_⟩
      · simp only [ecma_hashmap_probe_match]
        rw [if_neg h0, heq, ecma_hashmap_probe_pos_shift]
      · rw [ecma_hashmap_probe_pos_shift]
        exact hcell2
      · intro m hm
        match m with
        | 0 => simpa [ecma_hashmap_probe_pos] using h0
        | m2 + 1 =>
          rw [ecma_hashmap_probe_pos_shift]
          exact hfirst m2 (by omega)

/-- Counterexample to C6 as stated: on a 32-cell table whose unused_count is
24, deleting the record stored at cell 0 (index 1, hash 0) returns the
RECREATE status but does not write the DIRTY tombstone: the cell array is
unchanged and the record's cell still holds index 1. -/
theorem spec_c6_delete_counterexample :
    (ecma_property_hashmap_delete
        ⟨2, [0, 1, 1], [],
          some ⟨32, 0, 24, (List.replicate 32 ECMA_PROPERTY_HASHMAP_CLEAN_ENTRY).set 0 1⟩⟩
        ⟨65, 5, 0, 0, 0⟩ 1).1 =
      ecma_property_hashmap_delete_status.ECMA_PROPERTY_HASHMAP_DELETE_RECREATE_HASHMAP
    ∧ (24 : Nat) + 1 > (32 * 3) >>> 2
    ∧ ((ecma_property_hashmap_delete
        ⟨2, [0, 1, 1], [],
          some ⟨32, 0, 24, (List.replicate 32 ECMA_PROPERTY_HASHMAP_CLEAN_ENTRY).set 0 1⟩⟩
        ⟨65, 5, 0, 0, 0⟩ 1).2.hashmap.map ecma_property_hashmap_t.pair_list) =
      some ((List.replicate 32 ECMA_PROPERTY_HASHMAP_CLEAN_ENTRY).set 0 1)
    ∧ ((List.replicate 32 ECMA_PROPERTY_HASHMAP_CLEAN_ENTRY).set 0 1).getD
        (ecma_hashmap_probe_pos ((⟨65, 5, 0, 0, 0⟩ : ecma_property_t).nameHash &&& (32 - 1))
          (ecma_hashmap_step_of (⟨65, 5, 0, 0, 0⟩ : ecma_property_t).nameHash) (32 - 1) 0) 0 = 1
    ∧ (1 : Nat) ≠ ECMA_PROPERTY_HASHMAP_DIRTY_ENTRY := by
  decide

/-- C6 as amended: hashmap delete first increments unused_count; when the
incremented count exceeds three quarters of the table it returns the
RECREATE status immediately, leaving the cell array unchanged (no tombstone
is written); otherwise it probes for the cell holding the record's index,
writes the DIRTY tombstone into that cell, and returns HAS_HASHMAP.  The
status is RECREATE exactly when unused_count (after the increment) exceeds
3*max_property_count/4. -/
theorem spec_c6_hashmap_delete (h : ecma_property_header_t)
    (hm : ecma_property_hashmap_t) (p : ecma_property_t) (idx : Nat)
    (hhm : h.hashmap = some hm)
    (hpresent : ∃ i < hm.max_property_count,
      hm.pair_list.getD
        (ecma_hashmap_probe_pos (p.nameHash &&& (hm.max_property_count - 1))
          (ecma_hashmap_step_of p.nameHash) (hm.max_property_count - 1) i) 0 <
        ECMA_PROPERTY_HASHMAP_DIRTY_ENTRY ∧
      hm.pair_list.getD
        (ecma_hashmap_probe_pos (p.nameHash &&& (hm.max_property_count - 1))
          (ecma_hashmap_step_of p.nameHash) (hm.max_property_count - 1) i) 0 = idx) :
    ((ecma_property_hashmap_delete h p idx).1 =
        ecma_property_hashmap_delete_status.ECMA_PROPERTY_HASHMAP_DELETE_RECREATE_HASHMAP ↔
      hm.unused_count + 1 > (hm.max_property_count * 3) >>> 2)
    ∧ (hm.unused_count + 1 > (hm.max_property_count * 3) >>> 2 →
        ecma_property_hashmap_delete h p idx =
          (ecma_property_hashmap_delete_status.ECMA_PROPERTY_HASHMAP_DELETE_RECREATE_HASHMAP,
            { h with hashmap := some { hm with unused_count := hm.unused_count + 1 } }))
    ∧ (¬ hm.unused_count + 1 > (hm.max_property_count * 3) >>> 2 →
        ∃ n < hm.max_property_count,
          hm.pair_list.getD
            (ecma_hashmap_probe_pos (p.nameHash &&& (hm.max_property_count - 1))
              (ecma_hashmap_step_of p.nameHash) (hm.max_property_count - 1) n) 0 = idx
          ∧ (∀ m < n,
              ¬ (hm.pair_list.getD
                  (ecma_hashmap_probe_pos (p.nameHash &&& (hm.max_property_count - 1))
                    (ecma_hashmap_step_of p.nameHash) (hm.max_property_count - 1) m) 0 <
                  ECMA_PROPERTY_HASHMAP_DIRTY_ENTRY ∧
                hm.pair_list.getD
                  (ecma_hashmap_probe_pos (p.nameHash &&& (hm.max_property_count - 1))
                    (ecma_hashmap_step_of p.nameHash) (hm.max_property_count - 1) m) 0 = idx))
          ∧ ecma_property_hashmap_delete h p idx =
              (ecma_property_hashmap_delete_status.ECMA_PROPERTY_HASHMAP_DELETE_HAS_HASHMAP,
                { h with hashmap := some { hm with
                    unused_count := hm.unused_count + 1,
                    pair_list := hm.pair_list.set
                      (ecma_hashmap_probe_pos (p.nameHash &&& (hm.max_property_count - 1))
                        (ecma_hashmap_step_of p.nameHash) (hm.max_property_count - 1) n)
                      ECMA_PROPERTY_HASHMAP_DIRTY_ENTRY } })) := by
  by_cases ha : hm.unused_count + 1 > (hm.max_property_count * 3) >>> 2
  · have heq : ecma_property_hashmap_delete h p idx =
        (ecma_property_hashmap_delete_status.ECMA_PROPERTY_HASHMAP_DELETE_RECREATE_HASHMAP,
          { h with hashmap := some { hm with unused_count := hm.unused_count + 1 } }) := by
      simp only [ecma_property_hashmap_delete, hhm]
      rw [if_pos ha]
    refine ⟨?_, fun _ => heq, fun hc => absurd ha hc⟩
    rw [heq]
    simpa using ha
  · obtain ⟨n, hn, heqm, hcell, hfirst⟩ :=
      ecma_hashmap_probe_match_spec hm.pair_list idx (ecma_hashmap_step_of p.nameHash)
        (hm.max_property_count - 1) hm.max_property_count
        (p.nameHash &&& (hm.max_property_count - 1)) hpresent
    have heq : ecma_property_hashmap_delete h p idx =
        (ecma_property_hashmap_delete_status.ECMA_PROPERTY_HASHMAP_DELETE_HAS_HASHMAP,
          { h with hashmap := some { hm with
              unused_count := hm.unused_count + 1,
              pair_list := hm.pair_list.set
                (ecma_hashmap_probe_pos (p.nameHash &&& (hm.max_property_count - 1))
                  (ecma_hashmap_step_of p.nameHash) (hm.max_property_count - 1) n)
                ECMA_PROPERTY_HASHMAP_DIRTY_ENTRY } }) := by
      simp only [ecma_property_hashmap_delete, hhm]
      rw [if_neg ha, heqm]
    refine ⟨?_, fun hc => absurd hc ha, fun _ => ⟨n, hn, hcell, hfirst, heq⟩⟩
    rw [heq]
    simpa using ha

/-- Witness for the amended C6: deleting index 7 (stored at cell 3, hash 3)
from a 32-cell table with unused_count 10 takes the tombstone branch. -/
theorem spec_c6_hashmap_delete_witness :
    (∃ i < (32 : Nat),
      ((List.replicate 32 ECMA_PROPERTY_HASHMAP_CLEAN_ENTRY).set 3 7).getD
        (ecma_hashmap_probe_pos (3 &&& (32 - 1)) (ecma_hashmap_step_of 3) (32 - 1) i) 0 <
        ECMA_PROPERTY_HASHMAP_DIRTY_ENTRY ∧
      ((List.replicate 32 ECMA_PROPERTY_HASHMAP_CLEAN_ENTRY).set 3 7).getD
        (ecma_hashmap_probe_pos (3 &&& (32 - 1)) (ecma_hashmap_step_of 3) (32 - 1) i) 0 = 7) ∧
    (∃ n < (32 : Nat),
      ((List.replicate 32 ECMA_PROPERTY_HASHMAP_CLEAN_ENTRY).set 3 7).getD
        (ecma_hashmap_probe_pos (3 &&& (32 - 1)) (ecma_hashmap_step_of 3) (32 - 1) n) 0 = 7
      ∧ (∀ m < n,
          ¬ (((List.replicate 32 ECMA_PROPERTY_HASHMAP_CLEAN_ENTRY).set 3 7).getD
              (ecma_hashmap_probe_pos (3 &&& (32 - 1)) (ecma_hashmap_step_of 3) (32 - 1) m) 0 <
              ECMA_PROPERTY_HASHMAP_DIRTY_ENTRY ∧
            ((List.replicate 32 ECMA_PROPERTY_HASHMAP_CLEAN_ENTRY).set 3 7).getD
              (ecma_hashmap_probe_pos (3 &&& (32 - 1)) (ecma_hashmap_step_of 3) (32 - 1) m) 0 = 7))
      ∧ ecma_property_hashmap_delete
          ⟨2, [0, 1, 1], [],
            some ⟨32, 10, 10, (List.replicate 32 ECMA_PROPERTY_HASHMAP_CLEAN_ENTRY).set 3 7⟩⟩
          ⟨65, 5, 0, 3, 0⟩ 7 =
          (ecma_property_hashmap_delete_status.ECMA_PROPERTY_HASHMAP_DELETE_HAS_HASHMAP,
            ⟨2, [0, 1, 1], [],
              some ⟨32, 10, 10 + 1,
                ((List.replicate 32 ECMA_PROPERTY_HASHMAP_CLEAN_ENTRY).set 3 7).set
                  (ecma_hashmap_probe_pos (3 &&& (32 - 1)) (ecma_hashmap_step_of 3) (32 - 1) n)
                  ECMA_PROPERTY_HASHMAP_DIRTY_ENTRY⟩⟩)) :=
  ⟨by decide,
    (spec_c6_hashmap_delete
      ⟨2, [0, 1, 1], [],
        some ⟨32, 10, 10, (List.replicate 32 ECMA_PROPERTY_HASHMAP_CLEAN_ENTRY).set 3 7⟩⟩
      ⟨32, 10, 10, (List.replicate 32 ECMA_PROPERTY_HASHMAP_CLEAN_ENTRY).set 3 7⟩
      ⟨65, 5, 0, 3, 0⟩ 7 rfl (by decide)).2.2 (by decide)⟩

/-- Decoding the object pointer out of a packed lookup-cache identifier. -/
theorem ECMA_LCACHE_CREATE_ID_decode (object_cp name_cp : Nat)
    (hcp : name_cp < 2 ^ 16) :
    (ECMA_LCACHE_CREATE_ID object_cp name_cp) >>> ECMA_LCACHE_HASH_ENTRY_ID_SHIFT =
      object_cp := by
  unfold ECMA_LCACHE_CREATE_ID ECMA_LCACHE_HASH_ENTRY_ID_SHIFT
  have h1 : object_cp <<< 16 ||| name_cp = object_cp * 2 ^ 16 + name_cp := by
    rw [Nat.shiftLeft_eq, Nat.mul_comm, ← Nat.mul_add_lt_is_or]
    omega
  rw [h1, Nat.shiftRight_eq_div_pow]
  omega

/-- The lookup row scan misses when no entry in the row carries the searched
identifier. -/
theorem ecma_lcache_lookup_row_none (h : Option ecma_property_header_t)
    (id ntype : Nat) :
    ∀ l : List ecma_lcache_hash_entry_t, (∀ e ∈ l, e.id ≠ id) →
      ecma_lcache_lookup_row h id ntype l = none := by
  intro l
  induction l with
  | nil => intro _; rfl
  | cons e rest ih =>
    intro hne
    have he : e.id ≠ id := hne e (by simp)
    simp only [ecma_lcache_lookup_row]
    rw [if_neg he]
    exact ih (fun x hx => hne x (by simp [hx]))

/-- C10: for an object whose property-list pointer is the NULL compressed
pointer (no property was ever created on it, hence no lookup-cache entry
references it), ecma_find_named_property returns NULL for every name and
leaves the state untouched; the lookup-cache lookup misses, and the
src/unnamed/part_000 lookup variant returns NULL immediately through its
explicit NULL-header guard, with no hypothesis on the cache contents. -/
theorem spec_c10_find_on_empty_object (st : jerry_engine_state_t)
    (object_cp : Nat) (name : ecma_string_t)
    (hobj : st.objects.lookup object_cp = some none)
    (hcp : name.cp < 2 ^ 16)
    (hnoent : ∀ row ∈ st.lcache, ∀ e ∈ row,
      e.id >>> ECMA_LCACHE_HASH_ENTRY_ID_SHIFT ≠ object_cp) :
    ecma_find_named_property st object_cp name = (none, st)
    ∧ ecma_lcache_lookup st object_cp name = none
    ∧ ecma_lcache_lookup_v0 st object_cp name = none := by
  have hheader : jerry_object_header st object_cp = none := by
    unfold jerry_object_header
    rw [hobj]
  have hmiss : ecma_lcache_lookup st object_cp name = none := by
    unfold ecma_lcache_lookup
    apply ecma_lcache_lookup_row_none
    intro e he hid
    by_cases hrow : ecma_lcache_row_index object_cp name.cp < st.lcache.length
    · have hmem : st.lcache.getD (ecma_lcache_row_index object_cp name.cp) [] ∈
          st.lcache := by
        rw [List.getD_eq_getElem st.lcache [] hrow]
        exact List.getElem_mem hrow
      have := hnoent _ hmem e he
      rw [hid, ECMA_LCACHE_CREATE_ID_decode object_cp name.cp hcp] at this
      exact this rfl
    · rw [List.getD_eq_default st.lcache [] (by omega)] at he
      simp at he
  refine ⟨?_, hmiss, ?_⟩
  · unfold ecma_find_named_property
    rw [hmiss, hheader]
  · unfold ecma_lcache_lookup_v0
    rw [hobj]

set_option maxRecDepth 10000 in
/-- Witness for C10: a fresh engine state with one object whose header
pointer is NULL and an all-empty lookup cache. -/
theorem spec_c10_find_on_empty_object_witness :
    ((⟨⟨true, true⟩,
        List.replicate 128 (List.replicate 2 ⟨0, 0⟩),
        [(1, none)]⟩ : jerry_engine_state_t).objects.lookup 1 = some none
      ∧ (⟨2, 5, 0⟩ : ecma_string_t).cp < 2 ^ 16) ∧
    ecma_find_named_property
      ⟨⟨true, true⟩, List.replicate 128 (List.replicate 2 ⟨0, 0⟩), [(1, none)]⟩
      1 ⟨2, 5, 0⟩ =
      (none,
        ⟨⟨true, true⟩, List.replicate 128 (List.replicate 2 ⟨0, 0⟩), [(1, none)]⟩) ∧
    ecma_lcache_lookup_v0
      ⟨⟨true, true⟩, List.replicate 128 (List.replicate 2 ⟨0, 0⟩), [(1, none)]⟩
      1 ⟨2, 5, 0⟩ = none :=
  ⟨⟨rfl, by decide⟩,
    (spec_c10_find_on_empty_object
      ⟨⟨true, true⟩, List.replicate 128 (List.replicate 2 ⟨0, 0⟩), [(1, none)]⟩
      1 ⟨2, 5, 0⟩ rfl (by decide) (by decide)).1,
    (spec_c10_find_on_empty_object
      ⟨⟨true, true⟩, List.replicate 128 (List.replicate 2 ⟨0, 0⟩), [(1, none)]⟩
      1 ⟨2, 5, 0⟩ rfl (by decide) (by decide)).2.2⟩

/-! ## The name-aliasing scenario

Two live properties of one object whose names have the same compressed
value 5 but different name types: a magic-id name (type 1) and an unsigned
integer name (type 2).  The packed lookup-cache identifier
(object_cp << 16) | name_cp cannot distinguish them, and
ecma_lcache_invalidate matches entries by this identifier alone. -/

/-- Initial engine state: one object (compressed pointer 1) with no
property list, an empty lookup cache, hashmap allocation OFF. -/
def jerry_alias_state_0 : jerry_engine_state_t :=
  ⟨⟨false, true⟩, List.replicate 128 (List.replicate 2 ⟨0, 0⟩), [(1, none)]⟩

/-- The magic-id direct-string name with payload 5. -/
def jerry_alias_name_b : ecma_string_t := ⟨ECMA_DIRECT_STRING_MAGIC, 5, 0⟩

/-- The unsigned-integer direct-string name with payload 5. -/
def jerry_alias_name_a : ecma_string_t := ⟨ECMA_DIRECT_STRING_UINT, 5, 0⟩

/-- After create(obj, B): property B in slot 1. -/
def jerry_alias_state_1 : jerry_engine_state_t :=
  (ecma_create_property jerry_alias_state_0 1 jerry_alias_name_b
    ECMA_PROPERTY_TYPE_NAMEDDATA 0).1

/-- After find(obj, B): B is cached (row 4, first entry). -/
def jerry_alias_state_2 : jerry_engine_state_t :=
  (ecma_find_named_property jerry_alias_state_1 1 jerry_alias_name_b).2

/-- After create(obj, A): property A in slot 2. -/
def jerry_alias_state_3 : jerry_engine_state_t :=
  (ecma_create_property jerry_alias_state_2 1 jerry_alias_name_a
    ECMA_PROPERTY_TYPE_NAMEDDATA 0).1

/-- After find(obj, A): A is cached (row 4, second entry, same id as B). -/
def jerry_alias_state_4 : jerry_engine_state_t :=
  (ecma_find_named_property jerry_alias_state_3 1 jerry_alias_name_a).2

/-- After delete(obj, slot 2): deleting A invalidates by id and hits B's
cache entry instead of A's. -/
def jerry_alias_state_5 : jerry_engine_state_t :=
  ecma_delete_property jerry_alias_state_4 1 2

set_option maxRecDepth 100000 in
/-- C1 fails on the code: create(obj, B) put B in slot 1 and find(obj, B)
returned slot 1 both right after creation and right before the delete; the
delete of slot 2 (property A, a different name, hence an unrelated
operation for (obj, B)) leaves B's record in slot 1 untouched and live, yet
afterwards find(obj, B) returns slot 2, a DELETED slot, instead of B's
record; it returns neither B's record nor the null sentinel.  (In a debug
build the assertion `ecma_is_property_lcached (property_p)` inside
ecma_lcache_lookup fails at this point, since the returned deleted slot has
its LCACHED bit clear.) -/
theorem spec_c1_roundtrip_broken_on_alias :
    (ecma_find_named_property jerry_alias_state_1 1 jerry_alias_name_b).1 = some 1
    ∧ (ecma_find_named_property jerry_alias_state_4 1 jerry_alias_name_b).1 = some 1
    ∧ (ecma_find_named_property jerry_alias_state_5 1 jerry_alias_name_b).1 = some 2
    ∧ ((jerry_object_header jerry_alias_state_5 1).map (fun h =>
        (h.slots.getD 0 default).name_cp)) = some 5
    ∧ ((jerry_object_header jerry_alias_state_5 1).map (fun h =>
        ECMA_PROPERTY_IS_NAMED_PROPERTY (h.slots.getD 0 default))) = some true
    ∧ ((jerry_object_header jerry_alias_state_5 1).map (fun h =>
        (h.slots.getD 1 default).type_flags)) = some ECMA_PROPERTY_TYPE_DELETED
    ∧ ((jerry_object_header jerry_alias_state_5 1).map (fun h =>
        ecma_is_property_lcached (h.slots.getD 1 default))) = some false
    ∧ (2 : Nat) ≠ 1 := by
  decide

set_option maxRecDepth 100000 in
/-- C2 fails on the code: in the state after the delete, B's record (slot 1)
still has its LCACHED bit set but no lookup-cache entry references it, while
slot 2 has its LCACHED bit clear yet is still referenced by exactly one
(stale) entry.  ecma_lcache_invalidate cleared B's entry together with A's
LCACHED bit, because it matches entries by the packed id alone and the two
names share it. -/
theorem spec_c2_lcache_coherence_broken_on_alias :
    ((jerry_object_header jerry_alias_state_5 1).map (fun h =>
        ecma_is_property_lcached (h.slots.getD 0 default))) = some true
    ∧ (jerry_alias_state_5.lcache.map (fun row =>
        row.countP (fun e =>
          e.id != 0 && e.id >>> ECMA_LCACHE_HASH_ENTRY_ID_SHIFT == 1 &&
          e.index == 1))).sum = 0
    ∧ ((jerry_object_header jerry_alias_state_5 1).map (fun h =>
        ecma_is_property_lcached (h.slots.getD 1 default))) = some false
    ∧ (jerry_alias_state_5.lcache.map (fun row =>
        row.countP (fun e =>
          e.id != 0 && e.id >>> ECMA_LCACHE_HASH_ENTRY_ID_SHIFT == 1 &&
          e.index == 2))).sum = 1 := by
  decide

/-! ## Growth sequences (claim C7) -/

/-- Apply a sequence of property creations (name, type_and_flags, value) to
one object. -/
def jerry_apply_creates (st : jerry_engine_state_t) (object_cp : Nat) :
    List (ecma_string_t × Nat × Nat) → jerry_engine_state_t
  | [] => st
  | op :: rest =>
    jerry_apply_creates (ecma_create_property st object_cp op.1 op.2.1 op.2.2).1
      object_cp rest

/-- The hashmap dispatch ecma_create_property will consult, read off the
state before the call: the dispatch depends only on the header cache (which
appending a slot does not change) and on the new index. -/
def jerry_create_hashmap_action (st : jerry_engine_state_t) (object_cp : Nat) :
    ecma_create_hashmap_branch :=
  match st.objects.lookup object_cp with
  | none => ecma_create_hashmap_branch.no_hashmap_work
  | some none =>
    ecma_create_property_dispatch
      { count := 1, cache := List.replicate ECMA_PROPERTY_CACHE_SIZE 1,
        slots := [default], hashmap := none } 1
  | some (some h) =>
    ecma_create_property_dispatch
      { h with count := h.count + 1, slots := h.slots ++ [default] } (h.count + 1)

/-- The invariant of a pure growth sequence: below
ECMA_PROPERTY_HASMAP_MINIMUM_SIZE properties the object has no hashmap and
the header cache marker is untouched; from the threshold on, a hashmap is
attached and marked. -/
def jerry_c7_header_ok (oh : Option ecma_property_header_t) (k : Nat) : Prop :=
  match oh with
  | none => k = 0
  | some h =>
    h.count = k ∧ 1 ≤ k ∧
    (k < ECMA_PROPERTY_HASMAP_MINIMUM_SIZE →
      h.cache.getD 0 1 ≠ 0 ∧ h.hashmap = none) ∧
    (ECMA_PROPERTY_HASMAP_MINIMUM_SIZE ≤ k →
      h.cache.getD 0 1 = 0 ∧ h.hashmap ≠ none)

/-- Looking up a key after the point update used by
jerry_set_object_header, when the key is present. -/
theorem jerry_lookup_map_update (object_cp : Nat)
    (h : Option ecma_property_header_t) :
    ∀ l : List (Nat × Option ecma_property_header_t),
      (∃ x, l.lookup object_cp = some x) →
      (l.map (fun e => if e.1 = object_cp then (object_cp, h) else e)).lookup
        object_cp = some h := by
  intro l
  induction l with
  | nil =>
    rintro ⟨x, hx⟩
    simp [List.lookup] at hx
  | cons e rest ih =>
    obtain ⟨a, b⟩ := e
    rintro ⟨x, hx⟩
    by_cases he : a = object_cp
    · subst he
      have hupd : ((a, b) :: rest).map (fun e => if e.1 = a then (a, h) else e) =
          (a, h) :: rest.map (fun e => if e.1 = a then (a, h) else e) := by
        simp
      rw [hupd]
      simp [List.lookup]
    · have hbe : (object_cp == a) = false := by
        simp
        exact fun hc => he hc.symm
      have hupd : ((a, b) :: rest).map
          (fun e => if e.1 = object_cp then (object_cp, h) else e) =
          (a, b) :: rest.map (fun e => if e.1 = object_cp then (object_cp, h) else e) := by
        simp [he]
      rw [hupd]
      simp only [List.lookup, hbe] at hx ⊢
      exact ih ⟨x, hx⟩

/-- Updating an object that is present in the heap. -/
theorem jerry_set_object_header_lookup (st : jerry_engine_state_t)
    (object_cp : Nat) (h x : Option ecma_property_header_t)
    (hx : st.objects.lookup object_cp = some x) :
    (jerry_set_object_header st object_cp h).objects.lookup object_cp = some h := by
  unfold jerry_set_object_header
  exact jerry_lookup_map_update object_cp h st.objects ⟨x, hx⟩

/-- Under a permitting context and a list of at least 16 slots, hashmap
insert keeps the property count unchanged and keeps a hashmap attached and
marked, whichever branch it takes. -/
theorem ecma_property_hashmap_insert_keeps (ctx : jcontext_t)
    (x : ecma_property_header_t) (name : ecma_string_t) (index : Nat)
    (hON : ctx.ecma_prop_hashmap_alloc_on = true)
    (hOK : ctx.heap_alloc_ok = true)
    (hcnt : ECMA_PROPERTY_HASMAP_MINIMUM_SIZE / 2 ≤ x.count)
    (hc0 : x.cache.getD 0 1 = 0)
    (hm : ecma_property_hashmap_t) (hhm : x.hashmap = some hm) :
    (ecma_property_hashmap_insert ctx x name index).count = x.count
    ∧ (ecma_property_hashmap_insert ctx x name index).cache.getD 0 1 = 0
    ∧ (ecma_property_hashmap_insert ctx x name index).hashmap ≠ none := by
  have hC : ECMA_PROPERTY_HASMAP_MINIMUM_SIZE = 32 := rfl
  by_cases hlow : hm.null_count < hm.max_property_count >>> 3
  · have heq : ecma_property_hashmap_insert ctx x name index =
        ecma_property_hashmap_create ctx (ecma_property_hashmap_free x) := by
      simp only [ecma_property_hashmap_insert, hhm]
      rw [if_pos hlow]
    have hfcnt : ¬ (ecma_property_hashmap_free x).count <
        ECMA_PROPERTY_HASMAP_MINIMUM_SIZE / 2 := by
      show ¬ x.count < ECMA_PROPERTY_HASMAP_MINIMUM_SIZE / 2
      omega
    have hbuilt := ecma_property_hashmap_create_built ctx
      (ecma_property_hashmap_free x) hON hfcnt hOK
    rw [heq, hbuilt]
    exact ⟨rfl, rfl, by simp⟩
  · rcases hres : ecma_hashmap_probe_free hm.pair_list (ecma_hashmap_step_of name.hash)
        (hm.max_property_count - 1) (name.hash &&& (hm.max_property_count - 1))
        hm.max_property_count with _ | j
    · have heq : ecma_property_hashmap_insert ctx x name index = x := by
        simp only [ecma_property_hashmap_insert, hhm]
        rw [if_neg hlow, hres]
      rw [heq]
      exact ⟨rfl, hc0, by simp [hhm]⟩
    · have heq : ecma_property_hashmap_insert ctx x name index =
          { x with hashmap := some { hm with
              pair_list := hm.pair_list.set j index,
              null_count :=
                if hm.pair_list.getD j 0 = ECMA_PROPERTY_HASHMAP_CLEAN_ENTRY then
                  hm.null_count - 1
                else hm.null_count,
              unused_count := hm.unused_count - 1 } } := by
        simp only [ecma_property_hashmap_insert, hhm]
        rw [if_neg hlow, hres]
      rw [heq]
      exact ⟨rfl, hc0, by simp⟩

/-- One step of a growth sequence: creating a property on an object with k
properties yields k+1 properties, preserves the growth invariant, and the
hashmap dispatch of the step is: nothing below the threshold, hashmap
creation exactly when the new count reaches
ECMA_PROPERTY_HASMAP_MINIMUM_SIZE, hashmap insertion above it. -/
theorem jerry_c7_create_step (st : jerry_engine_state_t) (object_cp : Nat)
    (name : ecma_string_t) (tf v k : Nat)
    (hON : st.ctx.ecma_prop_hashmap_alloc_on = true)
    (hOK : st.ctx.heap_alloc_ok = true)
    (oh : Option ecma_property_header_t)
    (hoh : st.objects.lookup object_cp = some oh)
    (hok : jerry_c7_header_ok oh k) :
    (∃ oh2, (ecma_create_property st object_cp name tf v).1.objects.lookup object_cp =
        some oh2 ∧ jerry_c7_header_ok oh2 (k + 1))
    ∧ (ecma_create_property st object_cp name tf v).1.ctx = st.ctx
    ∧ jerry_create_hashmap_action st object_cp =
        (if k + 1 < ECMA_PROPERTY_HASMAP_MINIMUM_SIZE then
          ecma_create_hashmap_branch.no_hashmap_work
        else if k + 1 = ECMA_PROPERTY_HASMAP_MINIMUM_SIZE then
          ecma_create_hashmap_branch.created_hashmap
        else ecma_create_hashmap_branch.inserted_into_hashmap) := by
  have hC : ECMA_PROPERTY_HASMAP_MINIMUM_SIZE = 32 := rfl
  cases oh with
  | none =>
    have hk0 : k = 0 := hok
    subst hk0
    have hcr : ecma_create_property st object_cp name tf v =
        (jerry_set_object_header st object_cp (some ⟨1, List.replicate ECMA_PROPERTY_CACHE_SIZE 1, [⟨tf ||| (name.ntype <<< ECMA_PROPERTY_NAME_TYPE_SHIFT), name.cp, 0, name.hash, v⟩], none⟩), some 1) := by
      simp only [ecma_create_property, hoh]
      rfl
    refine ⟨⟨some ⟨1, List.replicate ECMA_PROPERTY_CACHE_SIZE 1, [⟨tf ||| (name.ntype <<< ECMA_PROPERTY_NAME_TYPE_SHIFT), name.cp, 0, name.hash, v⟩], none⟩, ?_, ?_⟩, ?_, ?_⟩
    · rw [hcr]
      exact jerry_set_object_header_lookup st object_cp _ _ hoh
    · exact ⟨rfl, by omega, fun _ => ⟨show (List.replicate ECMA_PROPERTY_CACHE_SIZE 1).getD 0 1 ≠ 0 from by decide, rfl⟩, fun hc => absurd hc (by decide)⟩
    · rw [hcr]
      rfl
    · simp only [jerry_create_hashmap_action, hoh]
      rfl
  | some h =>
    obtain ⟨hcount, hk1, hlt, hge⟩ := hok
    by_cases hc1 : k + 1 < 32
    · obtain ⟨hc0, hhmn⟩ := hlt (by rw [hC]; omega)
      have hdisp : ecma_create_property_dispatch { h with count := h.count + 1, slots := h.slots ++ [⟨tf ||| (name.ntype <<< ECMA_PROPERTY_NAME_TYPE_SHIFT), name.cp, 0, name.hash, v⟩] } (h.count + 1) = ecma_create_hashmap_branch.no_hashmap_work := by
        simp only [ecma_create_property_dispatch]
        rw [if_neg hc0, if_neg (show ¬ ECMA_PROPERTY_HASMAP_MINIMUM_SIZE ≤ h.count + 1 from by rw [hC]; omega)]
      have hcr : ecma_create_property st object_cp name tf v =
          (jerry_set_object_header st object_cp (some { h with count := h.count + 1, slots := h.slots ++ [⟨tf ||| (name.ntype <<< ECMA_PROPERTY_NAME_TYPE_SHIFT), name.cp, 0, name.hash, v⟩] }), some (h.count + 1)) := by
        simp only [ecma_create_property, hoh, hdisp]
      refine ⟨⟨some { h with count := h.count + 1, slots := h.slots ++ [⟨tf ||| (name.ntype <<< ECMA_PROPERTY_NAME_TYPE_SHIFT), name.cp, 0, name.hash, v⟩] }, ?_, ?_⟩, ?_, ?_⟩
      · rw [hcr]
        exact jerry_set_object_header_lookup st object_cp _ _ hoh
      · exact ⟨show h.count + 1 = k + 1 from by omega, by omega,
          fun _ => ⟨hc0, hhmn⟩, fun hcge => absurd hcge (by rw [hC]; omega)⟩
      · rw [hcr]
        rfl
      · simp only [jerry_create_hashmap_action, hoh, ecma_create_property_dispatch]
        rw [if_neg hc0, if_neg (show ¬ ECMA_PROPERTY_HASMAP_MINIMUM_SIZE ≤ h.count + 1 from by rw [hC]; omega), if_pos (show k + 1 < ECMA_PROPERTY_HASMAP_MINIMUM_SIZE from by rw [hC]; omega)]
    · by_cases hc2 : k + 1 = 32
      · obtain ⟨hc0, hhmn⟩ := hlt (by rw [hC]; omega)
        have hdisp : ecma_create_property_dispatch { h with count := h.count + 1, slots := h.slots ++ [⟨tf ||| (name.ntype <<< ECMA_PROPERTY_NAME_TYPE_SHIFT), name.cp, 0, name.hash, v⟩] } (h.count + 1) = ecma_create_hashmap_branch.created_hashmap := by
          simp only [ecma_create_property_dispatch]
          rw [if_neg hc0, if_pos (show ECMA_PROPERTY_HASMAP_MINIMUM_SIZE ≤ h.count + 1 from by rw [hC]; omega)]
        have hcr : ecma_create_property st object_cp name tf v =
            (jerry_set_object_header st object_cp (some (ecma_property_hashmap_create st.ctx { h with count := h.count + 1, slots := h.slots ++ [⟨tf ||| (name.ntype <<< ECMA_PROPERTY_NAME_TYPE_SHIFT), name.cp, 0, name.hash, v⟩] })), some (h.count + 1)) := by
          simp only [ecma_create_property, hoh, hdisp]
        have hbuilt := ecma_property_hashmap_create_built st.ctx
          { h with count := h.count + 1, slots := h.slots ++ [⟨tf ||| (name.ntype <<< ECMA_PROPERTY_NAME_TYPE_SHIFT), name.cp, 0, name.hash, v⟩] } hON
          (show ¬ ((h.count + 1 : Nat) < ECMA_PROPERTY_HASMAP_MINIMUM_SIZE / 2) from by rw [hC]; omega) hOK
        refine ⟨⟨_, by rw [hcr]; exact jerry_set_object_header_lookup st object_cp _ _ hoh, ?_⟩,
          by rw [hcr]; rfl, ?_⟩
        · rw [hbuilt]
          exact ⟨show h.count + 1 = k + 1 from by omega, by omega,
            fun hclt => absurd hclt (by rw [hC]; omega), fun _ => ⟨rfl, by simp⟩⟩
        · simp only [jerry_create_hashmap_action, hoh, ecma_create_property_dispatch]
          rw [if_neg hc0, if_pos (show ECMA_PROPERTY_HASMAP_MINIMUM_SIZE ≤ h.count + 1 from by rw [hC]; omega), if_neg (show ¬ (k + 1 < ECMA_PROPERTY_HASMAP_MINIMUM_SIZE) from by rw [hC]; omega), if_pos (show k + 1 = ECMA_PROPERTY_HASMAP_MINIMUM_SIZE from by rw [hC]; omega)]
      · obtain ⟨hc0, hhmn⟩ := hge (by rw [hC]; omega)
        obtain ⟨hm, hhm⟩ := Option.ne_none_iff_exists.mp hhmn
        have hdisp : ecma_create_property_dispatch { h with count := h.count + 1, slots := h.slots ++ [⟨tf ||| (name.ntype <<< ECMA_PROPERTY_NAME_TYPE_SHIFT), name.cp, 0, name.hash, v⟩] } (h.count + 1) = ecma_create_hashmap_branch.inserted_into_hashmap := by
          simp only [ecma_create_property_dispatch]
          rw [if_pos hc0]
        have hcr : ecma_create_property st object_cp name tf v =
            (jerry_set_object_header st object_cp (some (ecma_property_hashmap_insert st.ctx { h with count := h.count + 1, slots := h.slots ++ [⟨tf ||| (name.ntype <<< ECMA_PROPERTY_NAME_TYPE_SHIFT), name.cp, 0, name.hash, v⟩] } name (h.count + 1))), some (h.count + 1)) := by
          simp only [ecma_create_property, hoh, hdisp]
        have hkeeps := ecma_property_hashmap_insert_keeps st.ctx
          { h with count := h.count + 1, slots := h.slots ++ [⟨tf ||| (name.ntype <<< ECMA_PROPERTY_NAME_TYPE_SHIFT), name.cp, 0, name.hash, v⟩] } name (h.count + 1) hON hOK
          (show ECMA_PROPERTY_HASMAP_MINIMUM_SIZE / 2 ≤ h.count + 1 from by rw [hC]; omega)
          (show ({ h with count := h.count + 1, slots := h.slots ++ [⟨tf ||| (name.ntype <<< ECMA_PROPERTY_NAME_TYPE_SHIFT), name.cp, 0, name.hash, v⟩] } : ecma_property_header_t).cache.getD 0 1 = 0 from hc0)
          hm (show ({ h with count := h.count + 1, slots := h.slots ++ [⟨tf ||| (name.ntype <<< ECMA_PROPERTY_NAME_TYPE_SHIFT), name.cp, 0, name.hash, v⟩] } : ecma_property_header_t).hashmap = some hm from hhm.symm)
        refine ⟨⟨_, by rw [hcr]; exact jerry_set_object_header_lookup st object_cp _ _ hoh, ?_⟩,
          by rw [hcr]; rfl, ?_⟩
        · refine ⟨?_, by omega, fun hclt => absurd hclt (by rw [hC]; omega),
            fun _ => ⟨hkeeps.2.1, hkeeps.2.2⟩⟩
          rw [hkeeps.1]
          show h.count + 1 = k + 1
          omega
        · simp only [jerry_create_hashmap_action, hoh, ecma_create_property_dispatch]
          rw [if_pos hc0, if_neg (show ¬ (k + 1 < ECMA_PROPERTY_HASMAP_MINIMUM_SIZE) from by rw [hC]; omega), if_neg (show ¬ (k + 1 = ECMA_PROPERTY_HASMAP_MINIMUM_SIZE) from by rw [hC]; omega)]

/-- Applying a concatenated sequence of creations is applying them in turn. -/
theorem jerry_apply_creates_append (object_cp : Nat)
    (l1 l2 : List (ecma_string_t × Nat × Nat)) :
    ∀ st : jerry_engine_state_t,
      jerry_apply_creates st object_cp (l1 ++ l2) =
        jerry_apply_creates (jerry_apply_creates st object_cp l1) object_cp l2 := by
  induction l1 with
  | nil => intro st; rfl
  | cons op rest ih =>
    intro st
    simp only [List.cons_append, jerry_apply_creates]
    exact ih _

/-- Along a pure growth sequence started on an object with no property list,
the context is untouched and after i creations the object's header satisfies
the growth invariant at count i. -/
theorem jerry_c7_state_ok (st : jerry_engine_state_t) (object_cp : Nat)
    (ops : List (ecma_string_t × Nat × Nat))
    (hON : st.ctx.ecma_prop_hashmap_alloc_on = true)
    (hOK : st.ctx.heap_alloc_ok = true)
    (h0 : st.objects.lookup object_cp = some none) :
    ∀ i, i ≤ ops.length →
      (jerry_apply_creates st object_cp (ops.take i)).ctx = st.ctx ∧
      ∃ oh, (jerry_apply_creates st object_cp (ops.take i)).objects.lookup object_cp =
          some oh ∧ jerry_c7_header_ok oh i := by
  intro i
  induction i with
  | zero =>
    intro _
    exact ⟨rfl, ⟨none, h0, rfl⟩⟩
  | succ i ih =>
    intro hi
    have hilt : i < ops.length := by omega
    obtain ⟨hctx, oh, hoh, hok⟩ := ih (by omega)
    have htake : ops.take (i + 1) = ops.take i ++ [ops.get ⟨i, hilt⟩] := by
      rw [List.take_succ]
      have hgi : ops[i]? = some (ops.get ⟨i, hilt⟩) := by
        rw [List.getElem?_eq_getElem hilt]
        rfl
      rw [hgi]
      rfl
    rw [htake, jerry_apply_creates_append]
    set st1 := jerry_apply_creates st object_cp (ops.take i) with hst1
    have hON1 : st1.ctx.ecma_prop_hashmap_alloc_on = true := by rw [hctx]; exact hON
    have hOK1 : st1.ctx.heap_alloc_ok = true := by rw [hctx]; exact hOK
    have hstep := jerry_c7_create_step st1 object_cp (ops.get ⟨i, hilt⟩).1
      (ops.get ⟨i, hilt⟩).2.1 (ops.get ⟨i, hilt⟩).2.2 i hON1 hOK1 oh hoh hok
    refine ⟨?_, ?_⟩
    · show (jerry_apply_creates (ecma_create_property st1 object_cp (ops.get ⟨i, hilt⟩).1
        (ops.get ⟨i, hilt⟩).2.1 (ops.get ⟨i, hilt⟩).2.2).1 object_cp []).ctx = st.ctx
      rw [show ∀ s : jerry_engine_state_t, jerry_apply_creates s object_cp [] = s from fun s => rfl]
      rw [hstep.2.1, hctx]
    · obtain ⟨oh2, hoh2, hok2⟩ := hstep.1
      exact ⟨oh2, hoh2, hok2⟩

/-- C7: for every sequence of property creations growing one object from an
empty property list, with hashmap allocation ON and the heap never failing,
the hashmap branch taken at step i (the creation bringing the count to i+1)
is: no hashmap work while the count stays below
ECMA_PROPERTY_HASMAP_MINIMUM_SIZE, hashmap creation exactly at the step
whose insertion makes the count reach the threshold, and hashmap insertion
at every later step — so creation is triggered exactly once. -/
theorem spec_c7_growth_triggers_hashmap_once (st : jerry_engine_state_t)
    (object_cp : Nat) (ops : List (ecma_string_t × Nat × Nat))
    (hON : st.ctx.ecma_prop_hashmap_alloc_on = true)
    (hOK : st.ctx.heap_alloc_ok = true)
    (h0 : st.objects.lookup object_cp = some none) :
    ∀ i, i < ops.length →
      jerry_create_hashmap_action (jerry_apply_creates st object_cp (ops.take i)) object_cp =
        (if i + 1 < ECMA_PROPERTY_HASMAP_MINIMUM_SIZE then
          ecma_create_hashmap_branch.no_hashmap_work
        else if i + 1 = ECMA_PROPERTY_HASMAP_MINIMUM_SIZE then
          ecma_create_hashmap_branch.created_hashmap
        else ecma_create_hashmap_branch.inserted_into_hashmap) := by
  intro i hi
  obtain ⟨hctx, oh, hoh, hok⟩ := jerry_c7_state_ok st object_cp ops hON hOK h0 i (by omega)
  have hON1 : (jerry_apply_creates st object_cp (ops.take i)).ctx.ecma_prop_hashmap_alloc_on
      = true := by rw [hctx]; exact hON
  have hOK1 : (jerry_apply_creates st object_cp (ops.take i)).ctx.heap_alloc_ok = true := by
    rw [hctx]; exact hOK
  exact (jerry_c7_create_step (jerry_apply_creates st object_cp (ops.take i)) object_cp
    (ops.get ⟨i, hi⟩).1 (ops.get ⟨i, hi⟩).2.1 (ops.get ⟨i, hi⟩).2.2 i
    hON1 hOK1 oh hoh hok).2.2

/-- A concrete engine with one object (compressed pointer 1) carrying no
property list, hashmap allocation ON and an always-succeeding heap. -/
def jerry_c7_witness_state : jerry_engine_state_t :=
  ⟨⟨true, true⟩, List.replicate 128 (List.replicate 2 ⟨0, 0⟩), [(1, none)]⟩

/-- 33 property creations with distinct magic-string names. -/
def jerry_c7_witness_ops : List (ecma_string_t × Nat × Nat) :=
  (List.range 33).map (fun i => (⟨ECMA_DIRECT_STRING_MAGIC, i, i⟩, 0, 0))

/-- Witness for C7 on the concrete 33-step growth sequence: the step whose
insertion brings the count to 32 takes the hashmap-creation branch, and the
following step takes the hashmap-insertion branch. -/
theorem spec_c7_growth_triggers_hashmap_once_witness :
    jerry_create_hashmap_action
        (jerry_apply_creates jerry_c7_witness_state 1 (jerry_c7_witness_ops.take 31)) 1 =
      ecma_create_hashmap_branch.created_hashmap
    ∧ jerry_create_hashmap_action
        (jerry_apply_creates jerry_c7_witness_state 1 (jerry_c7_witness_ops.take 32)) 1 =
      ecma_create_hashmap_branch.inserted_into_hashmap := by
  have h := spec_c7_growth_triggers_hashmap_once jerry_c7_witness_state 1
    jerry_c7_witness_ops rfl rfl rfl
  exact ⟨h 31 (by decide), h 32 (by decide)⟩
